import Mathlib

/-!
Verification of the HyperionEngine simulation core (crates/hyperion-core).

Shallow embedding conventions:
* `f32` values are modelled as exact rationals (`ℚ`); IEEE rounding is not
  modelled.  The one partial operation, decoding an `f32` from wire bytes,
  maps the non-finite encodings (exponent 255) to 0 — no claim touches them.
* `u32` / `u8` / `u64` values are modelled as `Nat`; the sentinel
  `u32::MAX` is the literal constant `U32MAX`.
* Rust `Vec<T>` fields are `List` values; `Vec::resize`, `copy_within`
  and index assignment are the explicit list helpers below.
* `hecs` entity handles are modelled as `Nat` ids handed out by a
  monotone counter (`World.nextEid`); generational reuse of indices is
  not modelled (no claim depends on handle reuse).
* `hecs` component queries iterate in the model's insertion order; the
  engine only ever spawns the full 14-component archetype, so every live
  entity carries every base component (`OverflowChildren` presence is an
  `Option`, mirroring `insert_one` / `remove_one`).
-/

set_option allowUnsafeReducibility true

attribute [semireducible] Rat.add Rat.mul Rat.sub Rat.inv Rat.div Rat.neg

/-- u32::MAX, the sentinel used for "no parent" and "no slot". -/
def U32MAX : Nat := 4294967295

-- ---------------------------------------------------------------------------
-- glam-style vectors, quaternions and column-major 4x4 matrices
-- ---------------------------------------------------------------------------

/-- glam::Vec3 over exact rationals. -/
structure Vec3 where
  x : ℚ
  y : ℚ
  z : ℚ
  deriving DecidableEq, Repr

def Vec3.add (a b : Vec3) : Vec3 := ⟨a.x + b.x, a.y + b.y, a.z + b.z⟩

def Vec3.smul (v : Vec3) (c : ℚ) : Vec3 := ⟨v.x * c, v.y * c, v.z * c⟩

def Vec3.zero : Vec3 := ⟨0, 0, 0⟩

def Vec3.one : Vec3 := ⟨1, 1, 1⟩

/-- glam::Quat (x, y, z, w) over exact rationals. -/
structure Quat where
  x : ℚ
  y : ℚ
  z : ℚ
  w : ℚ
  deriving DecidableEq, Repr

def Quat.identity : Quat := ⟨0, 0, 0, 1⟩

/-- glam::Vec4, one column of a column-major matrix. -/
structure Vec4 where
  x : ℚ
  y : ℚ
  z : ℚ
  w : ℚ
  deriving DecidableEq, Repr

def Vec4.add (a b : Vec4) : Vec4 := ⟨a.x + b.x, a.y + b.y, a.z + b.z, a.w + b.w⟩

def Vec4.smul (v : Vec4) (c : ℚ) : Vec4 := ⟨v.x * c, v.y * c, v.z * c, v.w * c⟩

/-- glam::Mat4, four columns (`x_axis` is cols-array indices 0..3, …,
`w_axis` is cols-array indices 12..15; index 12 of `to_cols_array` is
`wAxis.x`). -/
structure Mat4 where
  xAxis : Vec4
  yAxis : Vec4
  zAxis : Vec4
  wAxis : Vec4
  deriving DecidableEq, Repr

/-- glam's `Mat4::mul_vec4`: linear combination of the columns. -/
def Mat4.mulVec4 (m : Mat4) (v : Vec4) : Vec4 :=
  ((m.xAxis.smul v.x).add ((m.yAxis.smul v.y).add
    ((m.zAxis.smul v.z).add (m.wAxis.smul v.w))))

/-- glam's `Mat4 * Mat4`: each result column is `lhs.mul_vec4 (rhs column)`. -/
def Mat4.mul (a b : Mat4) : Mat4 :=
  { xAxis := a.mulVec4 b.xAxis
    yAxis := a.mulVec4 b.yAxis
    zAxis := a.mulVec4 b.zAxis
    wAxis := a.mulVec4 b.wAxis }

def Mat4.identity : Mat4 :=
  { xAxis := ⟨1, 0, 0, 0⟩
    yAxis := ⟨0, 1, 0, 0⟩
    zAxis := ⟨0, 0, 1, 0⟩
    wAxis := ⟨0, 0, 0, 1⟩ }

/-- The three rotation columns of glam's `Mat3::from_quat`, written with the
same intermediate products as glam. -/
def Quat.toAxes (r : Quat) : Vec4 × Vec4 × Vec4 :=
  let x2 := r.x + r.x
  let y2 := r.y + r.y
  let z2 := r.z + r.z
  let xx := r.x * x2
  let xy := r.x * y2
  let xz := r.x * z2
  let yy := r.y * y2
  let yz := r.y * z2
  let zz := r.z * z2
  let wx := r.w * x2
  let wy := r.w * y2
  let wz := r.w * z2
  (⟨1 - (yy + zz), xy + wz, xz - wy, 0⟩,
   ⟨xy - wz, 1 - (xx + zz), yz + wx, 0⟩,
   ⟨xz + wy, yz - wx, 1 - (xx + yy), 0⟩)

/-- glam's `Mat4::from_scale_rotation_translation`: rotation columns scaled
componentwise, translation in the w column. -/
def Mat4.fromScaleRotationTranslation (s : Vec3) (r : Quat) (t : Vec3) : Mat4 :=
  let axes := r.toAxes
  { xAxis := axes.1.smul s.x
    yAxis := axes.2.1.smul s.y
    zAxis := axes.2.2.smul s.z
    wAxis := ⟨t.x, t.y, t.z, 1⟩ }

-- ---------------------------------------------------------------------------
-- Little-endian wire decoding (u32 and finite f32)
-- ---------------------------------------------------------------------------

/-- u32::from_le_bytes. -/
def u32FromLeBytes (b0 b1 b2 b3 : Nat) : Nat :=
  b0 + b1 * 256 + b2 * 65536 + b3 * 16777216

/-- f32::from_le_bytes for finite floats, as an exact rational.
Normal values decode to `(-1)^s * (2^23 + m) * 2^e / 2^150`, subnormals to
`(-1)^s * m / 2^149`; the non-finite encodings (exponent 255) are mapped to
0 and are never produced by any input a claim evaluates. -/
def f32FromLeBytes (b0 b1 b2 b3 : Nat) : ℚ :=
  let bits : Nat := u32FromLeBytes b0 b1 b2 b3
  let sign : ℚ := if bits / 2 ^ 31 % 2 = 1 then -1 else 1
  let e : Nat := bits / 2 ^ 23 % 256
  let m : Nat := bits % 2 ^ 23
  if e = 255 then 0
  else if e = 0 then sign * (m : ℚ) / 2 ^ 149
  else sign * ((2 ^ 23 + m : Nat) : ℚ) * 2 ^ e / 2 ^ 150

-- ---------------------------------------------------------------------------
-- Components (components.rs)
-- ---------------------------------------------------------------------------

/-- PrimitiveParams: 8 per-primitive f32 parameters. -/
structure PrimParams where
  p0 : ℚ
  p1 : ℚ
  p2 : ℚ
  p3 : ℚ
  p4 : ℚ
  p5 : ℚ
  p6 : ℚ
  p7 : ℚ
  deriving DecidableEq, Repr

def PrimParams.zero : PrimParams := ⟨0, 0, 0, 0, 0, 0, 0, 0⟩

/-- The Children component.  The source stores a fixed `[u32; 32]` array
plus a `u8` count; only the first `count` slots are ever observable
(`get`/`as_slice`/`remove` all stop at `count`), so the model stores that
live prefix as a list. -/
structure Children where
  slots : List Nat
  deriving DecidableEq, Repr

def Children.MAX_CHILDREN : Nat := 32

def Children.count (c : Children) : Nat := c.slots.length

def Children.empty : Children := ⟨[]⟩

/-- Children::add — appends when below capacity, reports success. -/
def Children.add (c : Children) (childId : Nat) : Children × Bool :=
  if c.slots.length ≥ Children.MAX_CHILDREN then (c, false)
  else (⟨c.slots ++ [childId]⟩, true)

/-- Children::remove — swap-removes the first occurrence (the last live slot
is moved into the hole, the count drops by one), reports whether found. -/
def Children.remove (c : Children) (childId : Nat) : Children × Bool :=
  match c.slots.findIdx? (fun s => s = childId) with
  | none => (c, false)
  | some i =>
    let n := c.slots.length
    (⟨(c.slots.set i (c.slots.getD (n - 1) 0)).take (n - 1)⟩, true)

/-- All base components of one spawned entity.  The dispatcher only ever
spawns the full 14-component archetype, so one record per entity suffices;
`OverflowChildren` presence is the `Option`, `Active` presence the `Bool`. -/
structure EntityData where
  position : Vec3
  rotation : Quat
  scale : Vec3
  velocity : Vec3
  modelMatrix : Mat4
  boundingRadius : ℚ
  textureLayerIndex : Nat
  meshHandle : Nat
  renderPrimitive : Nat
  primParams : PrimParams
  externalId : Nat
  parent : Nat
  children : Children
  overflowChildren : Option (List Nat)
  active : Bool
  deriving DecidableEq, Repr

/-- The component tuple built by both spawn paths: every component at its
`Default` (Parent = U32MAX, identity matrices, radius 1/2, Active present)
with `ExternalId` set from the command. -/
def defaultEntityData (externalId : Nat) : EntityData :=
  { position := Vec3.zero
    rotation := Quat.identity
    scale := Vec3.one
    velocity := Vec3.zero
    modelMatrix := Mat4.identity
    boundingRadius := 1 / 2
    textureLayerIndex := 0
    meshHandle := 0
    renderPrimitive := 0
    primParams := PrimParams.zero
    externalId := externalId
    parent := U32MAX
    children := Children.empty
    overflowChildren := none
    active := true }

-- ---------------------------------------------------------------------------
-- List helpers modelling Vec operations
-- ---------------------------------------------------------------------------

/-- Vec::resize — truncates or pads with `fill` to reach length `n`. -/
def listResize {α : Type} (l : List α) (n : Nat) (fill : α) : List α :=
  if n ≤ l.length then l.take n
  else l ++ List.replicate (n - l.length) fill

/-- slice::copy_within — copies `len` elements starting at `src` over the
elements starting at `dst` (the source range is read before writing). -/
def listCopyWithin {α : Type} [Inhabited α]
    (l : List α) (src len dst : Nat) : List α :=
  (List.range len).foldl (fun acc i => acc.set (dst + i) (l.getD (src + i) default)) l

-- ---------------------------------------------------------------------------
-- The ECS world (hecs::World, full-archetype entities only)
-- ---------------------------------------------------------------------------

/-- The hecs world: entity handles are Nats from a monotone counter; the
association list holds each live entity's full component record in spawn
order (the order hecs queries are modelled to iterate in). -/
structure World where
  nextEid : Nat
  entities : List (Nat × EntityData)
  deriving DecidableEq, Repr

def World.empty : World := { nextEid := 0, entities := [] }

/-- World::spawn — returns the fresh handle and the grown world. -/
def World.spawn (w : World) (d : EntityData) : Nat × World :=
  (w.nextEid, { nextEid := w.nextEid + 1, entities := w.entities ++ [(w.nextEid, d)] })

/-- World::despawn — removes the entity if present (dangling handles are a
graceful no-op, as in hecs). -/
def World.despawn (w : World) (eid : Nat) : World :=
  { w with entities := w.entities.filter (fun p => !(p.1 = eid)) }

/-- Component read (`world.get::<&C>`): the full record, or none when the
handle is dangling. -/
def World.get (w : World) (eid : Nat) : Option EntityData :=
  (w.entities.find? (fun p => p.1 = eid)).map Prod.snd

/-- Component write (`if let Ok(mut c) = world.get::<&mut C>`): applies `f`
to the entity's record when the handle is live, otherwise a no-op. -/
def World.modify (w : World) (eid : Nat) (f : EntityData → EntityData) : World :=
  { w with entities := w.entities.map (fun p => if p.1 = eid then (p.1, f p.2) else p) }

-- ---------------------------------------------------------------------------
-- EntityMap (command_processor.rs)
-- ---------------------------------------------------------------------------

/-- EntityMap: sparse external-id → entity map with free list. -/
structure EntityMap where
  map : List (Option Nat)
  free_list : List Nat
  next_id : Nat
  deriving DecidableEq, Repr

def EntityMap.new : EntityMap := { map := [], free_list := [], next_id := 0 }

/-- EntityMap::allocate — pops the free list (Vec::pop takes the last
element), else hands out `next_id`. -/
def EntityMap.allocate (m : EntityMap) : Nat × EntityMap :=
  match m.free_list.getLast? with
  | some id => (id, { m with free_list := m.free_list.dropLast })
  | none => (m.next_id, { m with next_id := m.next_id + 1 })

/-- EntityMap::insert — grows the sparse vector if needed, then stores. -/
def EntityMap.insert (m : EntityMap) (externalId : Nat) (entity : Nat) : EntityMap :=
  let grown := if externalId ≥ m.map.length
    then listResize m.map (externalId + 1) none else m.map
  { m with map := grown.set externalId (some entity) }

/-- EntityMap::get — in-bounds lookup flattened (out of bounds is none). -/
def EntityMap.get (m : EntityMap) (externalId : Nat) : Option Nat :=
  (m.map.getD externalId none)

/-- EntityMap::iter_mapped — the (external id, entity) pairs in ascending
external-id order. -/
def EntityMap.iter_mapped (m : EntityMap) : List (Nat × Nat) :=
  (m.map.enum.filterMap (fun p => p.2.map (fun e => (p.1, e))))

/-- EntityMap::remove — clears the cell when in bounds, and free-lists the
id only when `id < next_id`. -/
def EntityMap.remove (m : EntityMap) (externalId : Nat) : EntityMap :=
  let cleared := if externalId < m.map.length
    then m.map.set externalId none else m.map
  if externalId < m.next_id then
    { m with map := cleared, free_list := m.free_list ++ [externalId] }
  else { m with map := cleared }

-- ---------------------------------------------------------------------------
-- BitSet and DirtyTracker (render_state.rs)
-- ---------------------------------------------------------------------------

/-- BitSet: u64 words plus an incrementally maintained set-bit count. -/
structure BitSet where
  bits : List Nat
  count : Nat
  deriving DecidableEq, Repr

/-- BitSet::new — `capacity.div_ceil(64)` zero words. -/
def BitSet.new (capacity : Nat) : BitSet :=
  { bits := List.replicate ((capacity + 63) / 64) 0, count := 0 }

/-- BitSet::ensure_capacity — grows (never shrinks) the word vector. -/
def BitSet.ensure_capacity (bs : BitSet) (capacity : Nat) : BitSet :=
  let wordsNeeded := (capacity + 63) / 64
  if wordsNeeded > bs.bits.length then
    { bs with bits := bs.bits ++ List.replicate (wordsNeeded - bs.bits.length) 0 }
  else bs

/-- BitSet::set — auto-grows, sets the bit, bumps the count on first set. -/
def BitSet.set (bs : BitSet) (index : Nat) : BitSet :=
  let bs := bs.ensure_capacity (index + 1)
  let word := index / 64
  let bit := index % 64
  let mask := 2 ^ bit
  let cur := bs.bits.getD word 0
  if cur &&& mask = 0 then
    { bits := bs.bits.set word (cur ||| mask), count := bs.count + 1 }
  else bs

/-- BitSet::get — false out of bounds. -/
def BitSet.get (bs : BitSet) (index : Nat) : Bool :=
  let word := index / 64
  if word ≥ bs.bits.length then false
  else
    let bit := index % 64
    decide (bs.bits.getD word 0 &&& 2 ^ bit ≠ 0)

/-- BitSet::clear — zeroes every word, resets the count. -/
def BitSet.clear (bs : BitSet) : BitSet :=
  { bits := bs.bits.map (fun _ => 0), count := 0 }

/-- The three independent dirty bitsets. -/
structure DirtyTracker where
  transform_dirty : BitSet
  bounds_dirty : BitSet
  meta_dirty : BitSet
  deriving DecidableEq, Repr

def DirtyTracker.new (capacity : Nat) : DirtyTracker :=
  { transform_dirty := BitSet.new capacity
    bounds_dirty := BitSet.new capacity
    meta_dirty := BitSet.new capacity }

def DirtyTracker.mark_transform_dirty (t : DirtyTracker) (idx : Nat) : DirtyTracker :=
  { t with transform_dirty := t.transform_dirty.set idx }

def DirtyTracker.mark_bounds_dirty (t : DirtyTracker) (idx : Nat) : DirtyTracker :=
  { t with bounds_dirty := t.bounds_dirty.set idx }

def DirtyTracker.mark_meta_dirty (t : DirtyTracker) (idx : Nat) : DirtyTracker :=
  { t with meta_dirty := t.meta_dirty.set idx }

def DirtyTracker.is_transform_dirty (t : DirtyTracker) (idx : Nat) : Bool :=
  t.transform_dirty.get idx

def DirtyTracker.is_bounds_dirty (t : DirtyTracker) (idx : Nat) : Bool :=
  t.bounds_dirty.get idx

def DirtyTracker.is_meta_dirty (t : DirtyTracker) (idx : Nat) : Bool :=
  t.meta_dirty.get idx

def DirtyTracker.ensure_capacity (t : DirtyTracker) (capacity : Nat) : DirtyTracker :=
  { transform_dirty := t.transform_dirty.ensure_capacity capacity
    bounds_dirty := t.bounds_dirty.ensure_capacity capacity
    meta_dirty := t.meta_dirty.ensure_capacity capacity }

def DirtyTracker.clear (t : DirtyTracker) : DirtyTracker :=
  { transform_dirty := t.transform_dirty.clear
    bounds_dirty := t.bounds_dirty.clear
    meta_dirty := t.meta_dirty.clear }

-- ---------------------------------------------------------------------------
-- RenderState (render_state.rs)
-- ---------------------------------------------------------------------------

/-- A 32-bit word written into the dirty-staging packet: either the bit
pattern of an f32 (identified by the f32's exact value — `to_bits` is
injective on the finite floats the engine produces) or a plain u32. -/
inductive GpuWord where
  | f32bits (q : ℚ)
  | u32 (n : Nat)
  deriving DecidableEq, Repr

/-- Mat4::to_cols_array — the 16 column-major entries. -/
def Mat4.toColsArray (m : Mat4) : List ℚ :=
  [m.xAxis.x, m.xAxis.y, m.xAxis.z, m.xAxis.w,
   m.yAxis.x, m.yAxis.y, m.yAxis.z, m.yAxis.w,
   m.zAxis.x, m.zAxis.y, m.zAxis.z, m.zAxis.w,
   m.wAxis.x, m.wAxis.y, m.wAxis.z, m.wAxis.w]

/-- Overwrites `vals.length` elements of `l` starting at `start` (models a
slice `copy_from_slice` / indexed assignment run). -/
def listSetRange {α : Type} (l : List α) (start : Nat) (vals : List α) : List α :=
  (vals.enum).foldl (fun acc p => acc.set (start + p.1) p.2) l

/-- RenderState: retained SoA GPU buffers, dirty tracking, the stable
entity↔slot mapping and the pending-despawn queue.  The staging cache
fields of the source are read only by host accessors and are omitted. -/
structure RenderState where
  matrices : List Mat4
  gpu_transforms : List ℚ
  gpu_bounds : List ℚ
  gpu_render_meta : List Nat
  gpu_tex_indices : List Nat
  gpu_prim_params : List ℚ
  gpu_entity_ids : List Nat
  gpu_count : Nat
  dirty_tracker : DirtyTracker
  slot_to_entity : List Nat
  entity_to_slot : List Nat
  pending_despawns : List Nat
  deriving DecidableEq, Repr

def RenderState.new : RenderState :=
  { matrices := []
    gpu_transforms := []
    gpu_bounds := []
    gpu_render_meta := []
    gpu_tex_indices := []
    gpu_prim_params := []
    gpu_entity_ids := []
    gpu_count := 0
    dirty_tracker := DirtyTracker.new 0
    slot_to_entity := []
    entity_to_slot := []
    pending_despawns := [] }

/-- RenderState::collect — clears and repopulates the legacy matrix list
from every (ModelMatrix, Active) entity. -/
def RenderState.collect (rs : RenderState) (w : World) : RenderState :=
  { rs with matrices := (w.entities.filter (fun p => p.2.active)).map (fun p => p.2.modelMatrix) }

/-- RenderState::collect_gpu — clears the tracker, rebuilds all six SoA
buffers from the full-archetype Active entities and recounts them. -/
def RenderState.collect_gpu (rs : RenderState) (w : World) : RenderState :=
  let hint := rs.gpu_count
  let rs := { rs with
    dirty_tracker := (rs.dirty_tracker.clear).ensure_capacity hint
    gpu_transforms := []
    gpu_bounds := []
    gpu_render_meta := []
    gpu_tex_indices := []
    gpu_prim_params := []
    gpu_entity_ids := []
    gpu_count := 0 }
  w.entities.foldl (fun rs p =>
    let d := p.2
    if d.active then
      { rs with
        gpu_transforms := rs.gpu_transforms ++ d.modelMatrix.toColsArray
        gpu_bounds := rs.gpu_bounds ++ [d.position.x, d.position.y, d.position.z, d.boundingRadius]
        gpu_render_meta := rs.gpu_render_meta ++ [d.meshHandle, d.renderPrimitive]
        gpu_tex_indices := rs.gpu_tex_indices ++ [d.textureLayerIndex]
        gpu_prim_params := rs.gpu_prim_params ++
          [d.primParams.p0, d.primParams.p1, d.primParams.p2, d.primParams.p3,
           d.primParams.p4, d.primParams.p5, d.primParams.p6, d.primParams.p7]
        gpu_entity_ids := rs.gpu_entity_ids ++ [d.externalId]
        gpu_count := rs.gpu_count + 1 }
    else rs) rs

/-- RenderState::assign_slot — hands out slot `gpu_count`, grows the two
mapping vectors (slot_to_entity geometrically, filled with the dangling
handle) and all six SoA buffers, and marks the slot dirty in all three
bitsets.  Returns the slot together with the new state. -/
def RenderState.assign_slot (rs : RenderState) (entity : Nat) : Nat × RenderState :=
  let slot := rs.gpu_count
  let rs := { rs with gpu_count := rs.gpu_count + 1 }
  let rs := if slot ≥ rs.slot_to_entity.length then
      { rs with slot_to_entity :=
          listResize rs.slot_to_entity (Nat.nextPowerOfTwo (slot + 1)) U32MAX }
    else rs
  let rs := { rs with slot_to_entity := rs.slot_to_entity.set slot entity }
  let rs := if entity ≥ rs.entity_to_slot.length then
      { rs with entity_to_slot := listResize rs.entity_to_slot (entity + 1) U32MAX }
    else rs
  let rs := { rs with entity_to_slot := rs.entity_to_slot.set entity slot }
  let rs := { rs with
    gpu_transforms := listResize rs.gpu_transforms (rs.gpu_count * 16) 0
    gpu_bounds := listResize rs.gpu_bounds (rs.gpu_count * 4) 0
    gpu_render_meta := listResize rs.gpu_render_meta (rs.gpu_count * 2) 0
    gpu_tex_indices := listResize rs.gpu_tex_indices rs.gpu_count 0
    gpu_prim_params := listResize rs.gpu_prim_params (rs.gpu_count * 8) 0
    gpu_entity_ids := listResize rs.gpu_entity_ids rs.gpu_count 0 }
  let rs := { rs with dirty_tracker :=
    (((rs.dirty_tracker.ensure_capacity rs.gpu_count).mark_transform_dirty
      slot).mark_bounds_dirty slot).mark_meta_dirty slot }
  (slot, rs)

/-- RenderState::write_slot — refreshes every SoA field of `slot` from the
entity's components (a dangling handle writes nothing: each per-component
read fails together in the full-archetype model). -/
def RenderState.write_slot (rs : RenderState) (slot : Nat) (w : World) (entity : Nat) :
    RenderState :=
  match w.get entity with
  | none => rs
  | some d =>
    let s := slot
    { rs with
      gpu_transforms := listSetRange rs.gpu_transforms (s * 16) d.modelMatrix.toColsArray
      gpu_bounds := listSetRange rs.gpu_bounds (s * 4)
        [d.position.x, d.position.y, d.position.z, d.boundingRadius]
      gpu_render_meta := listSetRange rs.gpu_render_meta (s * 2)
        [d.meshHandle, d.renderPrimitive]
      gpu_tex_indices := rs.gpu_tex_indices.set s d.textureLayerIndex
      gpu_prim_params := listSetRange rs.gpu_prim_params (s * 8)
        [d.primParams.p0, d.primParams.p1, d.primParams.p2, d.primParams.p3,
         d.primParams.p4, d.primParams.p5, d.primParams.p6, d.primParams.p7]
      gpu_entity_ids := rs.gpu_entity_ids.set s d.externalId }

/-- RenderState::copy_soa_slot — copies every SoA field from slot src to
slot dst. -/
def RenderState.copy_soa_slot (rs : RenderState) (src dst : Nat) : RenderState :=
  { rs with
    gpu_transforms := listCopyWithin rs.gpu_transforms (src * 16) 16 (dst * 16)
    gpu_bounds := listCopyWithin rs.gpu_bounds (src * 4) 4 (dst * 4)
    gpu_render_meta := listCopyWithin rs.gpu_render_meta (src * 2) 2 (dst * 2)
    gpu_tex_indices := rs.gpu_tex_indices.set dst (rs.gpu_tex_indices.getD src 0)
    gpu_prim_params := listCopyWithin rs.gpu_prim_params (src * 8) 8 (dst * 8)
    gpu_entity_ids := rs.gpu_entity_ids.set dst (rs.gpu_entity_ids.getD src 0) }

/-- RenderState::get_slot — O(1) lookup through entity_to_slot with the
U32MAX sentinel. -/
def RenderState.get_slot (rs : RenderState) (entity : Nat) : Option Nat :=
  if entity ≥ rs.entity_to_slot.length then none
  else
    let slot := rs.entity_to_slot.getD entity 0
    if slot = U32MAX then none else some slot

/-- The body of the per-slot loop of RenderState::flush_pending_despawns:
swap-remove of one dead slot (`last` is the current highest slot). -/
def RenderState.flush_one (rs : RenderState) (slot : Nat) : RenderState :=
  let last := rs.gpu_count - 1
  let dead_entity := rs.slot_to_entity.getD slot 0
  let rs :=
    if slot ≠ last then
      let rs := rs.copy_soa_slot last slot
      let moved_entity := rs.slot_to_entity.getD last 0
      { rs with
        slot_to_entity := rs.slot_to_entity.set slot moved_entity
        entity_to_slot := rs.entity_to_slot.set moved_entity slot
        dirty_tracker := (((rs.dirty_tracker.mark_transform_dirty
          slot).mark_bounds_dirty slot).mark_meta_dirty slot) }
    else rs
  { rs with
    entity_to_slot := rs.entity_to_slot.set dead_entity U32MAX
    gpu_count := rs.gpu_count - 1 }

/-- The live slots of the pending-despawn queue, in queue order: entries
whose entity currently has an assigned slot (missing entities drop out). -/
def RenderState.despawn_slots (rs : RenderState) : List Nat :=
  rs.pending_despawns.filterMap (fun e =>
    if e ≥ rs.entity_to_slot.length then none
    else
      let slot := rs.entity_to_slot.getD e 0
      if slot = U32MAX then none else some slot)

/-- RenderState::flush_pending_despawns — drains the queue, keeps the live
slots, sorts them descending and swap-removes each. -/
def RenderState.flush_pending_despawns (rs : RenderState) : RenderState :=
  if rs.pending_despawns.isEmpty then rs
  else
    let slots := rs.despawn_slots
    let sorted := slots.insertionSort (fun a b => a ≥ b)
    let rs := { rs with pending_despawns := [] }
    sorted.foldl RenderState.flush_one rs

-- ---------------------------------------------------------------------------
-- Commands (ring_buffer.rs: CommandType, Command, parse_commands)
-- ---------------------------------------------------------------------------

/-- Discriminant of every ring-buffer command. -/
inductive CommandType where
  | Noop
  | SpawnEntity
  | DespawnEntity
  | SetPosition
  | SetRotation
  | SetScale
  | SetVelocity
  | SetTextureLayer
  | SetMeshHandle
  | SetRenderPrimitive
  | SetParent
  | SetPrimParams0
  | SetPrimParams1
  | SetListenerPosition
  deriving DecidableEq, Repr

/-- CommandType::from_u8. -/
def CommandType.from_u8 (v : Nat) : Option CommandType :=
  match v with
  | 0 => some .Noop
  | 1 => some .SpawnEntity
  | 2 => some .DespawnEntity
  | 3 => some .SetPosition
  | 4 => some .SetRotation
  | 5 => some .SetScale
  | 6 => some .SetVelocity
  | 7 => some .SetTextureLayer
  | 8 => some .SetMeshHandle
  | 9 => some .SetRenderPrimitive
  | 10 => some .SetParent
  | 11 => some .SetPrimParams0
  | 12 => some .SetPrimParams1
  | 13 => some .SetListenerPosition
  | _ => none

/-- CommandType::payload_size. -/
def CommandType.payload_size : CommandType → Nat
  | .Noop | .SpawnEntity | .DespawnEntity => 0
  | .SetPosition | .SetScale | .SetVelocity => 12
  | .SetRotation => 16
  | .SetTextureLayer => 4
  | .SetMeshHandle => 4
  | .SetRenderPrimitive => 4
  | .SetParent => 4
  | .SetPrimParams0 | .SetPrimParams1 => 16
  | .SetListenerPosition => 12

/-- CommandType::message_size — 1 (type) + 4 (entity id) + payload. -/
def CommandType.message_size (t : CommandType) : Nat :=
  1 + 4 + t.payload_size

/-- A decoded command; payload is the 16 zero-padded bytes. -/
structure Command where
  cmd_type : CommandType
  entity_id : Nat
  payload : List Nat
  deriving DecidableEq, Repr

/-- Reads a little-endian u32 from the payload at byte offset `off`. -/
def Command.payloadU32 (c : Command) (off : Nat) : Nat :=
  u32FromLeBytes (c.payload.getD off 0) (c.payload.getD (off + 1) 0)
    (c.payload.getD (off + 2) 0) (c.payload.getD (off + 3) 0)

/-- Reads a little-endian f32 from the payload at byte offset `off`. -/
def Command.payloadF32 (c : Command) (off : Nat) : ℚ :=
  f32FromLeBytes (c.payload.getD off 0) (c.payload.getD (off + 1) 0)
    (c.payload.getD (off + 2) 0) (c.payload.getD (off + 3) 0)

-- ---------------------------------------------------------------------------
-- Command dispatcher (command_processor.rs)
-- ---------------------------------------------------------------------------

/-- One dispatcher state triple: (world, entity map, render state). -/
def DispatchState : Type := World × EntityMap × RenderState

/-- Marks the child slot transform-dirty when assigned (the tail of the
SetParent branch). -/
def markTransformOf (rs : RenderState) (entity : Nat) : RenderState :=
  match rs.get_slot entity with
  | some slot => { rs with dirty_tracker := rs.dirty_tracker.mark_transform_dirty slot }
  | none => rs

/-- Marks transform and bounds dirty (tail of SetPosition / Rotation /
Scale). -/
def markTransformBoundsOf (rs : RenderState) (entity : Nat) : RenderState :=
  match rs.get_slot entity with
  | some slot => { rs with dirty_tracker :=
      (rs.dirty_tracker.mark_transform_dirty slot).mark_bounds_dirty slot }
  | none => rs

/-- Marks meta dirty (tail of the meta-mutating branches). -/
def markMetaOf (rs : RenderState) (entity : Nat) : RenderState :=
  match rs.get_slot entity with
  | some slot => { rs with dirty_tracker := rs.dirty_tracker.mark_meta_dirty slot }
  | none => rs

/-- process_single_command — one non-batch command against the ECS world;
every entity-addressed branch is guarded by the map lookup and is a no-op
when the external id is unmapped. -/
def process_single_command (cmd : Command) (w : World) (m : EntityMap)
    (rs : RenderState) : World × EntityMap × RenderState :=
  match cmd.cmd_type with
  | .SpawnEntity =>
    let sp := w.spawn (defaultEntityData cmd.entity_id)
    let entity := sp.1
    let w := sp.2
    let m := m.insert cmd.entity_id entity
    let asg := rs.assign_slot entity
    let rs := asg.2.write_slot asg.1 w entity
    (w, m, rs)
  | .DespawnEntity =>
    match m.get cmd.entity_id with
    | none => (w, m, rs)
    | some entity =>
      let rs := { rs with pending_despawns := rs.pending_despawns ++ [entity] }
      let w := w.despawn entity
      let m := m.remove cmd.entity_id
      (w, m, rs)
  | .SetPosition =>
    match m.get cmd.entity_id with
    | none => (w, m, rs)
    | some entity =>
      let v : Vec3 := ⟨cmd.payloadF32 0, cmd.payloadF32 4, cmd.payloadF32 8⟩
      let w := w.modify entity (fun d => { d with position := v })
      (w, m, markTransformBoundsOf rs entity)
  | .SetRotation =>
    match m.get cmd.entity_id with
    | none => (w, m, rs)
    | some entity =>
      let q : Quat := ⟨cmd.payloadF32 0, cmd.payloadF32 4, cmd.payloadF32 8,
        cmd.payloadF32 12⟩
      let w := w.modify entity (fun d => { d with rotation := q })
      (w, m, markTransformBoundsOf rs entity)
  | .SetScale =>
    match m.get cmd.entity_id with
    | none => (w, m, rs)
    | some entity =>
      let v : Vec3 := ⟨cmd.payloadF32 0, cmd.payloadF32 4, cmd.payloadF32 8⟩
      let w := w.modify entity (fun d => { d with scale := v })
      (w, m, markTransformBoundsOf rs entity)
  | .SetVelocity =>
    match m.get cmd.entity_id with
    | none => (w, m, rs)
    | some entity =>
      let v : Vec3 := ⟨cmd.payloadF32 0, cmd.payloadF32 4, cmd.payloadF32 8⟩
      let w := w.modify entity (fun d => { d with velocity := v })
      (w, m, rs)
  | .SetTextureLayer =>
    match m.get cmd.entity_id with
    | none => (w, m, rs)
    | some entity =>
      let packed := cmd.payloadU32 0
      let w := w.modify entity (fun d => { d with textureLayerIndex := packed })
      (w, m, markMetaOf rs entity)
  | .SetMeshHandle =>
    match m.get cmd.entity_id with
    | none => (w, m, rs)
    | some entity =>
      let handle := cmd.payloadU32 0
      let w := w.modify entity (fun d => { d with meshHandle := handle })
      (w, m, markMetaOf rs entity)
  | .SetRenderPrimitive =>
    match m.get cmd.entity_id with
    | none => (w, m, rs)
    | some entity =>
      let prim := cmd.payload.getD 0 0
      let w := w.modify entity (fun d => { d with renderPrimitive := prim })
      (w, m, markMetaOf rs entity)
  | .SetParent =>
    match m.get cmd.entity_id with
    | none => (w, m, rs)
    | some child_entity =>
      let new_parent_id := cmd.payloadU32 0
      let old_parent_id := (w.get child_entity).map (fun d => d.parent)
      let w :=
        match old_parent_id with
        | some old_id =>
          if old_id ≠ U32MAX then
            match m.get old_id with
            | some old_parent_entity =>
              let step1 : World × Bool :=
                match w.get old_parent_entity with
                | some pd =>
                  let res := pd.children.remove cmd.entity_id
                  (w.modify old_parent_entity (fun d => { d with children := res.1 }),
                   res.2)
                | none => (w, false)
              let w := step1.1
              if step1.2 = false then
                let step2 : World × Bool :=
                  match w.get old_parent_entity with
                  | some pd =>
                    match pd.overflowChildren with
                    | some items =>
                      let kept := items.filter (fun id => !(id = cmd.entity_id))
                      (w.modify old_parent_entity
                        (fun d => { d with overflowChildren := some kept }),
                       kept.isEmpty)
                    | none => (w, false)
                  | none => (w, false)
                let w := step2.1
                if step2.2 then
                  w.modify old_parent_entity (fun d => { d with overflowChildren := none })
                else w
              else w
            | none => w
          else w
        | none => w
      let w := w.modify child_entity (fun d => { d with parent := new_parent_id })
      let addStep : World × Option (Nat × Nat) :=
        if new_parent_id ≠ U32MAX then
          match m.get new_parent_id with
          | some parent_entity =>
            match w.get parent_entity with
            | some pd =>
              let res := pd.children.add cmd.entity_id
              (w.modify parent_entity (fun d => { d with children := res.1 }),
               if res.2 = false then some (parent_entity, cmd.entity_id) else none)
            | none => (w, none)
          | none => (w, none)
        else (w, none)
      let w := addStep.1
      let w :=
        match addStep.2 with
        | some pc =>
          match w.get pc.1 with
          | some pd =>
            match pd.overflowChildren with
            | some items =>
              w.modify pc.1 (fun d => { d with overflowChildren := some (items ++ [pc.2]) })
            | none =>
              w.modify pc.1 (fun d => { d with overflowChildren := some [pc.2] })
          | none => w
        | none => w
      (w, m, markTransformOf rs child_entity)
  | .SetPrimParams0 =>
    match m.get cmd.entity_id with
    | none => (w, m, rs)
    | some entity =>
      let w := w.modify entity (fun d => { d with primParams :=
        { d.primParams with
          p0 := cmd.payloadF32 0, p1 := cmd.payloadF32 4,
          p2 := cmd.payloadF32 8, p3 := cmd.payloadF32 12 } })
      (w, m, markMetaOf rs entity)
  | .SetPrimParams1 =>
    match m.get cmd.entity_id with
    | none => (w, m, rs)
    | some entity =>
      let w := w.modify entity (fun d => { d with primParams :=
        { d.primParams with
          p4 := cmd.payloadF32 0, p5 := cmd.payloadF32 4,
          p6 := cmd.payloadF32 8, p7 := cmd.payloadF32 12 } })
      (w, m, markMetaOf rs entity)
  | .Noop => (w, m, rs)
  | .SetListenerPosition => (w, m, rs)

/-- flush_spawn_batch — spawn_batch allocates every archetype first (ids in
insertion order), then the wire-up loop registers each entity and fills its
render slot. -/
def flush_spawn_batch (batch : List Command) (w : World) (m : EntityMap)
    (rs : RenderState) : World × EntityMap × RenderState :=
  let spawned : World × List Nat := batch.foldl (fun acc cmd =>
    let sp := acc.1.spawn (defaultEntityData cmd.entity_id)
    (sp.2, acc.2 ++ [sp.1])) (w, [])
  let w := spawned.1
  (batch.zip spawned.2).foldl (fun acc p =>
    let m := acc.2.1.insert p.1.entity_id p.2
    let asg := acc.2.2.assign_slot p.2
    let rs := asg.2.write_slot asg.1 acc.1 p.2
    (acc.1, m, rs)) (w, m, rs)

/-- The while-loop of process_commands, structurally recursive on a fuel
that starts at the command count: every iteration consumes at least one
command, so the fuel stays at least the remaining length and the
fuel-exhausted arm (which requires an empty remainder) is never taken with
commands left. -/
def process_commands_go (fuel : Nat) (cmds : List Command) (w : World)
    (m : EntityMap) (rs : RenderState) : World × EntityMap × RenderState :=
  match fuel, cmds with
  | _, [] => (w, m, rs)
  | 0, _ => (w, m, rs)
  | fuel + 1, c :: rest =>
    if c.cmd_type = CommandType.SpawnEntity then
      let batch := (c :: rest).takeWhile (fun x => x.cmd_type == CommandType.SpawnEntity)
      let rest' := (c :: rest).dropWhile (fun x => x.cmd_type == CommandType.SpawnEntity)
      if batch.length ≥ 2 then
        let st := flush_spawn_batch batch w m rs
        process_commands_go fuel rest' st.1 st.2.1 st.2.2
      else
        let st := process_single_command c w m rs
        process_commands_go fuel rest st.1 st.2.1 st.2.2
    else
      let st := process_single_command c w m rs
      process_commands_go fuel rest st.1 st.2.1 st.2.2

/-- process_commands — walks the command list, fusing consecutive
SpawnEntity runs of length ≥ 2 into the batch path. -/
def process_commands (cmds : List Command) (w : World) (m : EntityMap)
    (rs : RenderState) : World × EntityMap × RenderState :=
  process_commands_go cmds.length cmds w m rs

-- ---------------------------------------------------------------------------
-- Systems (systems.rs)
-- ---------------------------------------------------------------------------

/-- velocity_system — `pos += vel * dt` for every (Position, Velocity). -/
def velocity_system (w : World) (dt : ℚ) : World :=
  { w with entities := w.entities.map (fun p =>
      (p.1, { p.2 with position := p.2.position.add (p.2.velocity.smul dt) })) }

/-- transform_system — rebuilds every ModelMatrix from Scale, Rotation and
Position. -/
def transform_system (w : World) : World :=
  { w with entities := w.entities.map (fun p =>
      (p.1, { p.2 with modelMatrix :=
        Mat4.fromScaleRotationTranslation p.2.scale p.2.rotation p.2.position })) }

/-- HashMap::get over the (external id → entity) pairs built from
iter_mapped (keys are distinct, so first-match lookup is the map). -/
def lookupExt (l : List (Nat × Nat)) (k : Nat) : Option Nat :=
  (l.find? (fun p => p.1 = k)).map Prod.snd

/-- propagate_transforms — batch-then-write: the query loop reads the
matrices of parent and child as they were before the pass, collects
`parent_world * child_local` updates, then writes them all. -/
def propagate_transforms (w : World) (ext_to_entity : List (Nat × Nat)) : World :=
  let updates : List (Nat × Mat4) := w.entities.filterMap (fun p =>
    let d := p.2
    if !d.active then none
    else if d.parent = U32MAX then none
    else
      match lookupExt ext_to_entity d.parent with
      | none => none
      | some parent_entity =>
        match w.get parent_entity with
        | none => none
        | some pd => some (p.1, pd.modelMatrix.mul d.modelMatrix))
  updates.foldl (fun w u => w.modify u.1 (fun d => { d with modelMatrix := u.2 })) w

-- ---------------------------------------------------------------------------
-- Engine (engine.rs)
-- ---------------------------------------------------------------------------

/-- Fixed timestep: 60 ticks per second. -/
def FIXED_DT : ℚ := 1 / 60

structure Engine where
  world : World
  entity_map : EntityMap
  render_state : RenderState
  accumulator : ℚ
  tick_count : Nat
  listener_pos : Vec3
  listener_prev_pos : Vec3
  listener_vel : Vec3
  deriving DecidableEq, Repr

def Engine.new : Engine :=
  { world := World.empty
    entity_map := EntityMap.new
    render_state := RenderState.new
    accumulator := 0
    tick_count := 0
    listener_pos := Vec3.zero
    listener_prev_pos := Vec3.zero
    listener_vel := Vec3.zero }

/-- Engine::fixed_tick — velocity system plus listener extrapolation. -/
def Engine.fixed_tick (e : Engine) : Engine :=
  { e with
    world := velocity_system e.world FIXED_DT
    listener_pos := e.listener_pos.add (e.listener_vel.smul FIXED_DT) }

/-- One unfolding-bounded form of the update while-loop: runs a fixed tick
while the accumulator holds at least one timestep, for at most `fuel`
iterations. -/
def Engine.tickLoopGo : Nat → Engine → Engine
  | 0, e => e
  | fuel + 1, e =>
    if FIXED_DT ≤ e.accumulator then
      Engine.tickLoopGo fuel { e.fixed_tick with
        accumulator := e.accumulator - FIXED_DT
        tick_count := e.tick_count + 1 }
    else e

/-- The while-loop of Engine::update: run fixed ticks while the accumulator
holds at least one timestep.  The loop subtracts FIXED_DT while the
accumulator stays ≥ FIXED_DT, so it runs exactly ⌊accumulator / FIXED_DT⌋
times; handing that exact iteration count to `tickLoopGo` reproduces the
while loop (the loop guard is still re-tested every iteration, and the
fuel reaches 0 exactly when the guard first fails). -/
def Engine.tickLoop (e : Engine) : Engine :=
  Engine.tickLoopGo (⌊e.accumulator / FIXED_DT⌋).toNat e

/-- Engine::update — accumulate, clamp, tick, transform, propagate,
collect, collect_gpu. -/
def Engine.update (e : Engine) (dt : ℚ) : Engine :=
  let e := { e with accumulator := e.accumulator + dt }
  let e := if e.accumulator > FIXED_DT * 10 then
      { e with accumulator := FIXED_DT * 10 } else e
  let e := e.tickLoop
  let e := { e with world := transform_system e.world }
  let e := { e with world := propagate_transforms e.world e.entity_map.iter_mapped }
  let e := { e with render_state := e.render_state.collect e.world }
  { e with render_state := e.render_state.collect_gpu e.world }

/-- Engine::process_commands — the listener pre-scan followed by the
dispatcher over the full slice (the dispatcher receives the engine's world,
map and render stage; SetListenerPosition is ignored there). -/
def Engine.processCommands (e : Engine) (commands : List Command) : Engine :=
  let e := commands.foldl (fun e cmd =>
    if cmd.cmd_type = CommandType.SetListenerPosition then
      let new_pos : Vec3 := ⟨cmd.payloadF32 0, cmd.payloadF32 4, cmd.payloadF32 8⟩
      { e with
        listener_vel :=
          ⟨(new_pos.x - e.listener_prev_pos.x) / FIXED_DT,
           (new_pos.y - e.listener_prev_pos.y) / FIXED_DT,
           (new_pos.z - e.listener_prev_pos.z) / FIXED_DT⟩
        listener_pos := new_pos
        listener_prev_pos := new_pos }
    else e) e
  let st := process_commands commands e.world e.entity_map e.render_state
  { e with world := st.1, entity_map := st.2.1, render_state := st.2.2 }

-- ---------------------------------------------------------------------------
-- Flat decoder and ring consumer (ring_buffer.rs)
-- ---------------------------------------------------------------------------

/-- The loop of parse_commands, with the running byte position; returns the
decoded commands together with the position at which decoding stopped. -/
def parseGo (data : List Nat) : Nat → Nat → List Command × Nat
  | 0, pos => ([], pos)
  | fuel + 1, pos =>
    if pos < data.length then
      match CommandType.from_u8 (data.getD pos 0) with
      | none => ([], pos)
      | some ct =>
        if pos + ct.message_size > data.length then ([], pos)
        else
          let entity_id := u32FromLeBytes (data.getD (pos + 1) 0) (data.getD (pos + 2) 0)
            (data.getD (pos + 3) 0) (data.getD (pos + 4) 0)
          let psize := ct.payload_size
          let payload := (List.range 16).map
            (fun i => if i < psize then data.getD (pos + 5 + i) 0 else 0)
          let rest := parseGo data fuel (pos + ct.message_size)
          ({ cmd_type := ct, entity_id := entity_id, payload := payload } :: rest.1, rest.2)
    else ([], pos)

/-- The loop of parse_commands, with the running byte position; returns the
decoded commands together with the position at which decoding stopped.
Each iteration advances `pos` by a message size of at least 5, so running
the loop body on `data.length` fuel preserves `fuel ≥ data.length - pos`
and the fuel hits 0 only once `pos ≥ data.length`, where the loop exits
anyway — the fuel form is the while loop. -/
def parseRun (data : List Nat) (pos : Nat) : List Command × Nat :=
  parseGo data data.length pos

/-- parse_commands — decode a flat byte slice into commands. -/
def parse_commands (data : List Nat) : List Command := (parseRun data 0).1

/-- The consumer-visible ring buffer state: capacity, the circular data
region (one byte per list entry), and the two heads. -/
structure RingState where
  capacity : Nat
  data : List Nat
  write_head : Nat
  read_head : Nat
  deriving DecidableEq, Repr

/-- RingBufferConsumer::read_byte — wraps the offset modulo capacity. -/
def RingState.read_byte (rb : RingState) (offset : Nat) : Nat :=
  rb.data.getD (offset % rb.capacity) 0

/-- RingBufferConsumer::read_bytes — `len` circularly contiguous bytes. -/
def RingState.read_bytes (rb : RingState) (offset len : Nat) : List Nat :=
  (List.range len).map (fun i => rb.read_byte (offset + i))

/-- The available-byte computation drain performs each iteration
(`wh - rh` or wrapped). -/
def availAt (cap wh rh : Nat) : Nat :=
  if wh ≥ rh then wh - rh else cap - rh + wh

/-- The while-loop of RingBufferConsumer::drain.  The loop consumes at
least 5 of the at most `capacity - 1` available bytes per iteration, so
running it on `capacity` fuel never exhausts the fuel for any well-formed
head pair (proved in the drain theorem); each iteration decodes one message
exactly as the source does and advances modulo capacity. -/
def drainLoop (rb : RingState) (wh : Nat) : Nat → Nat → List Command × Nat
  | 0, rh => ([], rh)
  | fuel + 1, rh =>
    if rh = wh then ([], rh)
    else
      match CommandType.from_u8 (rb.read_byte rh) with
      | none => ([], rh)
      | some ct =>
        let avail := availAt rb.capacity wh rh
        if avail < ct.message_size then ([], rh)
        else
          let ids := rb.read_bytes (rh + 1) 4
          let entity_id := u32FromLeBytes (ids.getD 0 0) (ids.getD 1 0)
            (ids.getD 2 0) (ids.getD 3 0)
          let psize := ct.payload_size
          let raw := rb.read_bytes (rh + 5) psize
          let payload := (List.range 16).map
            (fun i => if i < psize then raw.getD i 0 else 0)
          let rest := drainLoop rb wh fuel ((rh + ct.message_size) % rb.capacity)
          ({ cmd_type := ct, entity_id := entity_id, payload := payload } :: rest.1,
           rest.2)

/-- RingBufferConsumer::drain — decodes all available commands starting at
read_head and returns them with the new read_head the release store
publishes. -/
def RingState.drain (rb : RingState) : List Command × Nat :=
  drainLoop rb rb.write_head rb.capacity rb.read_head

-- ---------------------------------------------------------------------------
-- Dirty staging collection (render_state.rs)
-- ---------------------------------------------------------------------------

/-- Result of collect_dirty_staging (the `dirty_ratio` field of the source
is named `dirty_frac` here). -/
structure DirtyStagingResult where
  staging : List GpuWord
  dirty_indices : List Nat
  dirty_count : Nat
  dirty_frac : ℚ
  deriving DecidableEq, Repr

/-- The per-dirty-slot body of the staging loop: refresh the slot from the
world, then emit the 32-word packet (compressed 2D for roots, the
pre-computed mat4 otherwise).  `eulerZ` abstracts glam's transcendental
`Quat::to_euler(ZYX).0` z-angle extraction, which has no exact rational
form; nothing a claim proves depends on its value. -/
def stagingEmitSlot (w : World) (eulerZ : Quat → ℚ)
    (acc : RenderState × List GpuWord) (slot : Nat) : RenderState × List GpuWord :=
  let rs := acc.1
  let s := slot
  let entity := rs.slot_to_entity.getD s 0
  let rs := rs.write_slot s w entity
  let is_root :=
    match w.get entity with
    | none => true
    | some d => d.parent = U32MAX
  let tpart : List GpuWord :=
    if is_root then
      let pos := match w.get entity with
        | none => Vec3.zero
        | some d => d.position
      let rot := match w.get entity with
        | none => Quat.identity
        | some d => d.rotation
      let scale := match w.get entity with
        | none => Vec3.one
        | some d => d.scale
      [GpuWord.f32bits pos.x, GpuWord.f32bits pos.y, GpuWord.f32bits pos.z,
       GpuWord.f32bits (eulerZ rot),
       GpuWord.f32bits scale.x, GpuWord.f32bits scale.y] ++
        List.replicate 10 (GpuWord.u32 0)
    else
      (List.range 16).map (fun j => GpuWord.f32bits (rs.gpu_transforms.getD (s * 16 + j) 0))
  let bpart := (List.range 4).map
    (fun j => GpuWord.f32bits (rs.gpu_bounds.getD (s * 4 + j) 0))
  let mpart := [GpuWord.u32 (rs.gpu_render_meta.getD (s * 2) 0),
    GpuWord.u32 (rs.gpu_render_meta.getD (s * 2 + 1) 0)]
  let texPart := [GpuWord.u32 (rs.gpu_tex_indices.getD s 0)]
  let ppart := (List.range 8).map
    (fun j => GpuWord.f32bits (rs.gpu_prim_params.getD (s * 8 + j) 0))
  let fpart := [GpuWord.u32 (if is_root then 0 else 1)]
  (rs, acc.2 ++ tpart ++ bpart ++ mpart ++ texPart ++ ppart ++ fpart)

/-- RenderState::collect_dirty_staging — early-returns when gpu_count is 0
(leaving the dirty trackers untouched); otherwise lists the union-dirty
slots ascending, emits a 32-word packet per dirty slot, and finally clears
all three dirty bitsets. -/
def RenderState.collect_dirty_staging (rs : RenderState) (w : World)
    (eulerZ : Quat → ℚ) : RenderState × DirtyStagingResult :=
  let total := rs.gpu_count
  if total = 0 then
    (rs, { staging := [], dirty_indices := [], dirty_count := 0, dirty_frac := 0 })
  else
    let dirty_indices := (List.range total).filter (fun slot =>
      rs.dirty_tracker.is_transform_dirty slot ||
      rs.dirty_tracker.is_bounds_dirty slot ||
      rs.dirty_tracker.is_meta_dirty slot)
    let dirty_count := dirty_indices.length
    let dirty_frac : ℚ := (dirty_count : ℚ) / (total : ℚ)
    let emitted := dirty_indices.foldl (stagingEmitSlot w eulerZ) (rs, [])
    let rs := { emitted.1 with dirty_tracker := emitted.1.dirty_tracker.clear }
    (rs, { staging := emitted.2, dirty_indices := dirty_indices,
           dirty_count := dirty_count, dirty_frac := dirty_frac })

-- ---------------------------------------------------------------------------
-- Supporting lemmas: fixed-timestep tick loop
-- ---------------------------------------------------------------------------

/-- The tick loop body fires at most `n` ticks (whatever the fuel) when the
accumulator holds at most `n` timesteps. -/
theorem tickLoopGo_tick_count_le (fuel : Nat) :
    ∀ n : Nat, ∀ e : Engine, e.accumulator ≤ (n : ℚ) * FIXED_DT →
      (Engine.tickLoopGo fuel e).tick_count ≤ e.tick_count + n := by
  induction fuel with
  | zero => intro n e _; simp [Engine.tickLoopGo]
  | succ fuel ih =>
    intro n e he
    rw [Engine.tickLoopGo]
    split
    · rename_i hacc
      have hd : (0 : ℚ) < FIXED_DT := by norm_num [FIXED_DT]
      match n with
      | 0 =>
        simp only [Nat.cast_zero, zero_mul] at he
        linarith
      | n + 1 =>
        have hrec := ih n { e.fixed_tick with
            accumulator := e.accumulator - FIXED_DT
            tick_count := e.tick_count + 1 }
          (by
            simp only [Engine.fixed_tick]
            push_cast at he ⊢
            linarith)
        simp only [Engine.fixed_tick] at hrec ⊢
        omega
    · omega

/-- The tick loop fires at most `n` ticks when the accumulator holds at most
`n` timesteps. -/
theorem tickLoop_tick_count_le (n : Nat) :
    ∀ e : Engine, e.accumulator ≤ (n : ℚ) * FIXED_DT →
      (e.tickLoop).tick_count ≤ e.tick_count + n := by
  intro e he
  exact tickLoopGo_tick_count_le _ n e he

/-- C8: For every dt (including dt = 100.0), a single call to Engine::update
increments tick_count by at most 10 — the accumulator is clamped to
10 * FIXED_DT before the fixed-tick loop, which therefore terminates after
at most 10 iterations. -/
theorem update_increments_tick_count_at_most_ten (e : Engine) (dt : ℚ) :
    (e.update dt).tick_count ≤ e.tick_count + 10 := by
  have hd : (0 : ℚ) < FIXED_DT := by norm_num [FIXED_DT]
  have hproj : (e.update dt).tick_count =
      (Engine.tickLoop (if ({ e with accumulator := e.accumulator + dt } :
          Engine).accumulator > FIXED_DT * 10 then
        { e with accumulator := FIXED_DT * 10 }
      else { e with accumulator := e.accumulator + dt })).tick_count := rfl
  rw [hproj]
  split
  · have := tickLoop_tick_count_le 10
      { e with accumulator := FIXED_DT * 10 }
      (by push_cast; linarith)
    simpa using this
  · rename_i hnc
    simp only [gt_iff_lt, not_lt] at hnc
    have := tickLoop_tick_count_le 10
      { e with accumulator := e.accumulator + dt }
      (by push_cast; linarith)
    simpa using this

-- ---------------------------------------------------------------------------
-- Concrete scenario builders shared by the claim instances
-- ---------------------------------------------------------------------------

set_option maxRecDepth 1000000

/-- An all-zero 16-byte payload. -/
def zeroPayload : List Nat := List.replicate 16 0

/-- A 16-byte payload holding one little-endian u32 at offset 0. -/
def u32Payload (v : Nat) : List Nat :=
  [v % 256, v / 256 % 256, v / 65536 % 256, v / 16777216 % 256] ++ List.replicate 12 0

def cmdSpawn (id : Nat) : Command :=
  { cmd_type := .SpawnEntity, entity_id := id, payload := zeroPayload }

def cmdDespawn (id : Nat) : Command :=
  { cmd_type := .DespawnEntity, entity_id := id, payload := zeroPayload }

def cmdSetParent (child pid : Nat) : Command :=
  { cmd_type := .SetParent, entity_id := child, payload := u32Payload pid }

/-- A SetPosition command whose payload encodes (x, 0, 0) with `x` given as
4 little-endian f32 bytes. -/
def cmdSetPositionX (id : Nat) (xbytes : List Nat) : Command :=
  { cmd_type := .SetPosition, entity_id := id, payload := xbytes ++ List.replicate 12 0 }

/-- The f32 little-endian encoding of 1.0. -/
def oneF32Bytes : List Nat := [0, 0, 128, 63]

-- ---------------------------------------------------------------------------
-- C7: Children capacity boundary (32 inline + overflow)
-- ---------------------------------------------------------------------------

/-- Entity 0 plus 32 children (ids 1..32) all parented to it. -/
def childScenario32 : World × EntityMap × RenderState :=
  process_commands
    ((List.range 33).map cmdSpawn ++ (List.range 32).map (fun i => cmdSetParent (i + 1) 0))
    World.empty EntityMap.new RenderState.new

/-- childScenario32 plus a 33rd child (id 33) parented to entity 0. -/
def childScenario33 : World × EntityMap × RenderState :=
  process_commands [cmdSpawn 33, cmdSetParent 33 0]
    childScenario32.1 childScenario32.2.1 childScenario32.2.2

/-- childScenario33 after unparenting the 33rd child (SetParent U32MAX). -/
def childScenario33Unparented : World × EntityMap × RenderState :=
  process_commands [cmdSetParent 33 U32MAX]
    childScenario33.1 childScenario33.2.1 childScenario33.2.2

/-- C7: parenting exactly 32 distinct children to one entity yields
Children.count = 32 with no OverflowChildren component; a 33rd child keeps
32 entries inline and puts 1 entry in OverflowChildren; unparenting that
33rd child removes the OverflowChildren component entirely while Children
keeps its 32 entries. -/
theorem children_overflow_boundary :
    ((childScenario32.1.get 0).map (fun d => (d.children.count, d.overflowChildren))
        = some (32, none)) ∧
    ((childScenario33.1.get 0).map (fun d => (d.children.count, d.overflowChildren))
        = some (32, some [33])) ∧
    ((childScenario33Unparented.1.get 0).map
        (fun d => (d.children.count, d.overflowChildren)) = some (32, none)) := by
  refine ⟨by decide, by decide, by decide⟩

-- ---------------------------------------------------------------------------
-- C3: DespawnEntity dispatch and the EntityMap free list
-- ---------------------------------------------------------------------------

/-- Clearing a sparse-map cell makes its lookup none (in or out of
bounds). -/
theorem getD_set_none (l : List (Option Nat)) (i : Nat) :
    (l.set i none).getD i none = none := by
  simp only [List.getD]
  rcases h : (l.set i none)[i]? with _ | v
  · simp [h]
  · rw [List.getElem?_set] at h
    split at h
    · simp_all
    · simp_all [List.getElem?_eq_none (by omega)]

/-- A despawned handle no longer resolves in the store. -/
theorem World.get_despawn_self (w : World) (e : Nat) : (w.despawn e).get e = none := by
  simp only [World.despawn, World.get]
  induction w.entities with
  | nil => simp
  | cons p rest ih =>
    by_cases hp : p.1 = e
    · simpa [List.filter, hp] using ih
    · simpa [List.filter, hp, List.find?] using ih

/-- After EntityMap::remove the entry no longer resolves. -/
theorem EntityMap.get_remove_self (m : EntityMap) (id : Nat) :
    (m.remove id).get id = none := by
  simp only [EntityMap.remove, EntityMap.get]
  by_cases hl : id < m.map.length
  · by_cases hn : id < m.next_id <;> simp [hn, hl, getD_set_none]
  · have hnone : m.map[id]? = none := List.getElem?_eq_none (by omega)
    by_cases hn : id < m.next_id <;> simp [hn, hl, List.getD, hnone]

/-- Spawn(0) followed by Despawn(0) on a fresh dispatcher state. -/
def spawnDespawnFresh : World × EntityMap × RenderState :=
  process_commands [cmdSpawn 0, cmdDespawn 0] World.empty EntityMap.new RenderState.new

/-- C3 counterexample: on a fresh engine the dispatcher never calls
EntityMap::allocate, so next_id is still 0 when DespawnEntity(0) runs and
`remove` refuses to free-list the id (`0 < next_id` fails): after
SpawnEntity(0); DespawnEntity(0) the free list is empty, contradicting the
claim that the id is on it (the map entry itself is gone and the handle was
queued, as the claim also says). -/
theorem despawn_does_not_freelist_on_fresh_engine :
    spawnDespawnFresh.2.1.free_list = [] ∧
    ¬ (0 ∈ spawnDespawnFresh.2.1.free_list) ∧
    spawnDespawnFresh.2.1.next_id = 0 ∧
    spawnDespawnFresh.2.1.get 0 = none ∧
    spawnDespawnFresh.2.2.pending_despawns = [0] := by
  refine ⟨by decide, by decide, by decide, by decide, by decide⟩

/-- C3 amended: DespawnEntity(id) with id mapped queues the handle onto
pending_despawns, destroys the entity in the store and removes the map
entry — but the id reaches the free list only when `id < next_id` held
before the call; since the dispatcher never calls allocate(), a fresh
engine has next_id = 0 and a despawned id is not free-listed (no later
allocate() can recycle it). -/
theorem despawn_queues_destroys_and_conditionally_freelists
    (cmd : Command) (w : World) (m : EntityMap) (rs : RenderState) (e : Nat)
    (hc : cmd.cmd_type = CommandType.DespawnEntity)
    (hm : m.get cmd.entity_id = some e) :
    (process_single_command cmd w m rs).2.2.pending_despawns
        = rs.pending_despawns ++ [e] ∧
    (process_single_command cmd w m rs).1.get e = none ∧
    (process_single_command cmd w m rs).2.1.get cmd.entity_id = none ∧
    ((cmd.entity_id ∈ (process_single_command cmd w m rs).2.1.free_list) ↔
      (cmd.entity_id < m.next_id ∨ cmd.entity_id ∈ m.free_list)) := by
  obtain ⟨ct, id, pl⟩ := cmd
  simp only at hc
  subst hc
  simp only [process_single_command] at *
  rw [hm]
  refine ⟨rfl, World.get_despawn_self w e, EntityMap.get_remove_self m id, ?_⟩
  simp only [EntityMap.remove]
  by_cases hn : id < m.next_id
  · simp [hn]
  · simp [hn]

/-- Witness for the amended C3 theorem at a concrete mapped state. -/
theorem despawn_queues_destroys_and_conditionally_freelists_witness :
    ((cmdDespawn 0).cmd_type = CommandType.DespawnEntity ∧
      (EntityMap.new.insert 0 0).get 0 = some 0) ∧
    ((process_single_command (cmdDespawn 0) (World.empty.spawn (defaultEntityData 0)).2
        (EntityMap.new.insert 0 0) RenderState.new).2.2.pending_despawns
        = RenderState.new.pending_despawns ++ [0] ∧
     (process_single_command (cmdDespawn 0) (World.empty.spawn (defaultEntityData 0)).2
        (EntityMap.new.insert 0 0) RenderState.new).1.get 0 = none ∧
     (process_single_command (cmdDespawn 0) (World.empty.spawn (defaultEntityData 0)).2
        (EntityMap.new.insert 0 0) RenderState.new).2.1.get (cmdDespawn 0).entity_id = none ∧
     (((cmdDespawn 0).entity_id ∈ (process_single_command (cmdDespawn 0)
          (World.empty.spawn (defaultEntityData 0)).2
          (EntityMap.new.insert 0 0) RenderState.new).2.1.free_list) ↔
        ((cmdDespawn 0).entity_id < (EntityMap.new.insert 0 0).next_id ∨
          (cmdDespawn 0).entity_id ∈ (EntityMap.new.insert 0 0).free_list))) :=
  ⟨⟨by decide, by decide⟩,
    despawn_queues_destroys_and_conditionally_freelists (cmdDespawn 0)
      (World.empty.spawn (defaultEntityData 0)).2 (EntityMap.new.insert 0 0)
      RenderState.new 0 (by decide) (by decide)⟩

-- ---------------------------------------------------------------------------
-- C2: dirty bitsets after collect_dirty_staging
-- ---------------------------------------------------------------------------

/-- Every bit of a cleared BitSet reads false. -/
theorem BitSet.get_clear (bs : BitSet) (i : Nat) : (bs.clear).get i = false := by
  simp only [BitSet.clear, BitSet.get]
  split
  · rfl
  · rename_i h
    have hlt : i / 64 < bs.bits.length := by
      simp only [List.length_map] at h
      omega
    have hsome : (bs.bits.map (fun _ => 0))[i / 64]? = some 0 := by
      rw [List.getElem?_map]
      simp [List.getElem?_eq_getElem hlt]
    simp [List.getD, hsome]

/-- write_slot never touches the dirty tracker. -/
theorem write_slot_dirty_tracker (rs : RenderState) (slot : Nat) (w : World)
    (entity : Nat) : (rs.write_slot slot w entity).dirty_tracker = rs.dirty_tracker := by
  simp only [RenderState.write_slot]
  split <;> rfl

/-- The staging emission loop never touches the dirty tracker. -/
theorem stagingEmitSlot_dirty_tracker (w : World) (eulerZ : Quat → ℚ)
    (acc : RenderState × List GpuWord) (slot : Nat) :
    ((stagingEmitSlot w eulerZ acc slot).1).dirty_tracker = acc.1.dirty_tracker := by
  simp only [stagingEmitSlot]
  rw [write_slot_dirty_tracker]

/-- Folding the staging emission over any slot list preserves the tracker. -/
theorem stagingEmit_foldl_dirty_tracker (w : World) (eulerZ : Quat → ℚ)
    (slots : List Nat) :
    ∀ acc : RenderState × List GpuWord,
      ((slots.foldl (stagingEmitSlot w eulerZ) acc).1).dirty_tracker
        = acc.1.dirty_tracker := by
  induction slots with
  | nil => intro acc; rfl
  | cons s rest ih =>
    intro acc
    rw [List.foldl_cons, ih, stagingEmitSlot_dirty_tracker]

/-- C2 amended: after collect_dirty_staging every bit of all three dirty
bitsets is clear provided gpu_count was nonzero at the call — the
`gpu_count = 0` early return hands the tracker back untouched, so the
claim's "including the case where gpu_count is zero" part fails. -/
theorem collect_dirty_staging_clears_all_bits (rs : RenderState) (w : World)
    (eulerZ : Quat → ℚ) (h : rs.gpu_count ≠ 0) :
    ∀ i : Nat,
      (rs.collect_dirty_staging w eulerZ).1.dirty_tracker.is_transform_dirty i = false ∧
      (rs.collect_dirty_staging w eulerZ).1.dirty_tracker.is_bounds_dirty i = false ∧
      (rs.collect_dirty_staging w eulerZ).1.dirty_tracker.is_meta_dirty i = false := by
  intro i
  simp only [RenderState.collect_dirty_staging, h, if_false, reduceIte]
  refine ⟨?_, ?_, ?_⟩ <;>
    simp [DirtyTracker.is_transform_dirty, DirtyTracker.is_bounds_dirty,
      DirtyTracker.is_meta_dirty, DirtyTracker.clear, BitSet.get_clear]

/-- Witness for the amended C2 theorem: a one-slot render state. -/
theorem collect_dirty_staging_clears_all_bits_witness :
    ((RenderState.new.assign_slot 0).2.gpu_count ≠ 0) ∧
    (∀ i : Nat,
      (((RenderState.new.assign_slot 0).2.collect_dirty_staging World.empty
        (fun _ => 0)).1.dirty_tracker.is_transform_dirty i = false) ∧
      (((RenderState.new.assign_slot 0).2.collect_dirty_staging World.empty
        (fun _ => 0)).1.dirty_tracker.is_bounds_dirty i = false) ∧
      (((RenderState.new.assign_slot 0).2.collect_dirty_staging World.empty
        (fun _ => 0)).1.dirty_tracker.is_meta_dirty i = false)) :=
  ⟨by decide,
   collect_dirty_staging_clears_all_bits (RenderState.new.assign_slot 0).2
     World.empty (fun _ => 0) (by decide)⟩

/-- C2 counterexample: spawn then despawn an entity through the dispatcher,
flush the pending despawn (gpu_count drops to 0 with the spawn's dirty bits
still set), and call collect_dirty_staging — the zero-entity early return
skips the final clear, so the transform bit of slot 0 is still set after
the call, falsifying "every dirty bit is clear — including the case where
gpu_count is zero". -/
theorem collect_dirty_staging_leaves_bits_set_when_empty :
    (spawnDespawnFresh.2.2.flush_pending_despawns).gpu_count = 0 ∧
    (((spawnDespawnFresh.2.2.flush_pending_despawns).collect_dirty_staging
        spawnDespawnFresh.1 (fun _ => 0)).1.dirty_tracker.is_transform_dirty 0
      = true) := by
  refine ⟨by decide, by decide⟩

-- ---------------------------------------------------------------------------
-- C4: commands addressing an unmapped external id
-- ---------------------------------------------------------------------------

/-- listResize always produces the requested length. -/
theorem listResize_length {α : Type} (l : List α) (n : Nat) (fill : α) :
    (listResize l n fill).length = n := by
  simp only [listResize]
  split <;> simp <;> omega

/-- Reading back a just-written in-bounds sparse-map cell. -/
theorem getD_set_some (l : List (Option Nat)) (i e : Nat) (hl : i < l.length) :
    (l.set i (some e)).getD i none = some e := by
  simp [List.getD, List.getElem?_set_self, hl]

/-- EntityMap::insert followed by get at the same id yields the entity. -/
theorem EntityMap.get_insert_self (m : EntityMap) (i e : Nat) :
    (m.insert i e).get i = some e := by
  simp only [EntityMap.insert, EntityMap.get]
  split
  · exact getD_set_some _ _ _ (by rw [listResize_length]; omega)
  · rename_i hge
    exact getD_set_some _ _ _ (by omega)

/-- Well-formed store: every live key is below the handle counter (true of
every state the engine can reach; spawn allocates monotonically). -/
def World.WF (w : World) : Prop := ∀ p ∈ w.entities, p.1 < w.nextEid

/-- In a well-formed store the freshly spawned handle resolves to the
spawned components. -/
theorem World.get_spawn_self (w : World) (d : EntityData) (hwf : w.WF) :
    ((w.spawn d).2).get w.nextEid = some d := by
  simp only [World.spawn, World.get]
  rw [List.find?_append]
  have hnone : w.entities.find? (fun p => p.1 = w.nextEid) = none := by
    rw [List.find?_eq_none]
    intro p hp
    have := hwf p hp
    simp
    omega
  simp [hnone, List.find?]

/-- write_slot never changes gpu_count. -/
theorem gpu_count_write_slot (rs : RenderState) (slot : Nat) (w : World)
    (entity : Nat) : (rs.write_slot slot w entity).gpu_count = rs.gpu_count := by
  simp only [RenderState.write_slot]
  split <;> rfl

/-- assign_slot increments gpu_count by exactly one. -/
theorem gpu_count_assign_slot (rs : RenderState) (entity : Nat) :
    ((rs.assign_slot entity).2).gpu_count = rs.gpu_count + 1 := by
  simp only [RenderState.assign_slot]
  split <;> split <;> rfl

/-- write_slot never changes the entity-to-slot mapping. -/
theorem get_slot_write_slot (rs : RenderState) (slot : Nat) (w : World)
    (entity x : Nat) : (rs.write_slot slot w entity).get_slot x = rs.get_slot x := by
  have h1 : (rs.write_slot slot w entity).entity_to_slot = rs.entity_to_slot := by
    simp only [RenderState.write_slot]
    split <;> rfl
  simp only [RenderState.get_slot, h1]

/-- After assign_slot the entity resolves to the handed-out slot (the
gpu_count bound keeps the fresh slot number distinct from the sentinel). -/
theorem get_slot_assign_slot_self (rs : RenderState) (entity : Nat)
    (hcnt : rs.gpu_count < U32MAX) :
    ((rs.assign_slot entity).2).get_slot entity = some rs.gpu_count := by
  have hets : ((rs.assign_slot entity).2).entity_to_slot =
      (if entity ≥ rs.entity_to_slot.length
        then listResize rs.entity_to_slot (entity + 1) U32MAX
        else rs.entity_to_slot).set entity rs.gpu_count := by
    simp only [RenderState.assign_slot]
    split <;> split <;> rfl
  have hl2 : entity < (if entity ≥ rs.entity_to_slot.length
      then listResize rs.entity_to_slot (entity + 1) U32MAX
      else rs.entity_to_slot).length := by
    split
    · rw [listResize_length]; omega
    · omega
  have hlen : entity < (((rs.assign_slot entity).2).entity_to_slot).length := by
    rw [hets, List.length_set]
    exact hl2
  have hgetD : (((rs.assign_slot entity).2).entity_to_slot).getD entity 0
      = rs.gpu_count := by
    rw [hets]
    simp [List.getD, List.getElem?_set_self, hl2]
  simp only [RenderState.get_slot]
  rw [if_neg (by omega), hgetD, if_neg (Nat.ne_of_lt hcnt)]

/-- C4: a single command whose external id is unmapped leaves the world,
entity map and render stage completely unchanged — except SpawnEntity,
which creates a fresh entity with every base component at its default,
registers the id in the map, and allocates (and marks dirty) the next
render slot.  (`rs.gpu_count < U32MAX` rules out the unreachable u32 wrap
where the fresh slot number would collide with the "no slot" sentinel.) -/
theorem unknown_entity_commands_are_noops (cmd : Command) (w : World)
    (m : EntityMap) (rs : RenderState) (h : m.get cmd.entity_id = none)
    (hwf : w.WF) (hcnt : rs.gpu_count < U32MAX) :
    (cmd.cmd_type ≠ CommandType.SpawnEntity →
      process_single_command cmd w m rs = (w, m, rs)) ∧
    (cmd.cmd_type = CommandType.SpawnEntity →
      (process_single_command cmd w m rs).1.get w.nextEid
          = some (defaultEntityData cmd.entity_id) ∧
      (process_single_command cmd w m rs).2.1.get cmd.entity_id = some w.nextEid ∧
      (process_single_command cmd w m rs).2.2.get_slot w.nextEid = some rs.gpu_count ∧
      (process_single_command cmd w m rs).2.2.gpu_count = rs.gpu_count + 1) := by
  obtain ⟨ct, id, pl⟩ := cmd
  constructor
  · intro hne
    cases ct <;> simp_all [process_single_command]
  · intro hct
    simp only at hct
    subst hct
    simp only [process_single_command]
    refine ⟨?_, ?_, ?_, ?_⟩
    · exact World.get_spawn_self w _ hwf
    · exact EntityMap.get_insert_self m id w.nextEid
    · rw [get_slot_write_slot]
      exact get_slot_assign_slot_self rs (w.spawn (defaultEntityData id)).1 hcnt
    · rw [gpu_count_write_slot, gpu_count_assign_slot]

/-- Witness for C4 at a concrete unmapped id (99) on fresh state. -/
theorem unknown_entity_commands_are_noops_witness :
    (EntityMap.new.get (cmdSetPositionX 99 oneF32Bytes).entity_id = none ∧
      World.empty.WF ∧ RenderState.new.gpu_count < U32MAX) ∧
    (((cmdSetPositionX 99 oneF32Bytes).cmd_type ≠ CommandType.SpawnEntity →
        process_single_command (cmdSetPositionX 99 oneF32Bytes) World.empty
          EntityMap.new RenderState.new = (World.empty, EntityMap.new, RenderState.new)) ∧
      ((cmdSetPositionX 99 oneF32Bytes).cmd_type = CommandType.SpawnEntity →
        (process_single_command (cmdSetPositionX 99 oneF32Bytes) World.empty
            EntityMap.new RenderState.new).1.get World.empty.nextEid
            = some (defaultEntityData (cmdSetPositionX 99 oneF32Bytes).entity_id) ∧
        (process_single_command (cmdSetPositionX 99 oneF32Bytes) World.empty
            EntityMap.new RenderState.new).2.1.get
            (cmdSetPositionX 99 oneF32Bytes).entity_id = some World.empty.nextEid ∧
        (process_single_command (cmdSetPositionX 99 oneF32Bytes) World.empty
            EntityMap.new RenderState.new).2.2.get_slot World.empty.nextEid
            = some RenderState.new.gpu_count ∧
        (process_single_command (cmdSetPositionX 99 oneF32Bytes) World.empty
            EntityMap.new RenderState.new).2.2.gpu_count
            = RenderState.new.gpu_count + 1)) :=
  ⟨⟨by decide, by simp [World.WF, World.empty], by decide⟩,
   unknown_entity_commands_are_noops (cmdSetPositionX 99 oneF32Bytes) World.empty
     EntityMap.new RenderState.new (by decide) (by simp [World.WF, World.empty])
     (by decide)⟩

-- ---------------------------------------------------------------------------
-- C10: SpawnEntity on an already-mapped external id
-- ---------------------------------------------------------------------------

/-- getD through an append, left side. -/
theorem getD_append_left {α : Type} (l l2 : List α) (i : Nat) (d : α)
    (h : i < l.length) : (l ++ l2).getD i d = l.getD i d := by
  simp [List.getD, List.getElem?_append_left h]

/-- getD is unchanged by a set at a different index. -/
theorem getD_set_ne {α : Type} (l : List α) (i j : Nat) (v d : α) (h : i ≠ j) :
    (l.set j v).getD i d = l.getD i d := by
  simp [List.getD, List.getElem?_set_ne (Ne.symm h)]

/-- getD inside the replicated fill of an append. -/
theorem getD_append_replicate {α : Type} (k : Nat) (f : α) (x : Nat) (l : List α)
    (d : α) (hx : l.length ≤ x) (hx2 : x < l.length + k) :
    (l ++ List.replicate k f).getD x d = f := by
  rw [List.getD, List.get?_eq_getElem?, List.getElem?_append_right (by omega)]
  rw [List.getElem?_replicate, if_pos (by omega)]
  rfl

/-- A non-shrinking listResize preserves in-bounds reads. -/
theorem listResize_getD_of_lt {α : Type} (l : List α) (n : Nat) (f : α) (i : Nat)
    (d : α) (hi : i < l.length) (hgrow : l.length ≤ n) :
    (listResize l n f).getD i d = l.getD i d := by
  simp only [listResize]
  split
  · rename_i hn
    have heq : n = l.length := by omega
    rw [heq, List.take_length]
  · exact getD_append_left _ _ _ _ hi

/-- The entity_to_slot vector after assign_slot: grown if needed, with the
fresh slot written at the entity's cell. -/
theorem assign_slot_entity_to_slot (rs : RenderState) (entity : Nat) :
    ((rs.assign_slot entity).2).entity_to_slot =
      (if entity ≥ rs.entity_to_slot.length
        then listResize rs.entity_to_slot (entity + 1) U32MAX
        else rs.entity_to_slot).set entity rs.gpu_count := by
  simp only [RenderState.assign_slot]
  split <;> split <;> rfl

/-- assign_slot leaves every other entity's slot lookup unchanged. -/
theorem get_slot_assign_slot_other (rs : RenderState) (entity x : Nat)
    (hne : x ≠ entity) :
    ((rs.assign_slot entity).2).get_slot x = rs.get_slot x := by
  rw [RenderState.get_slot, RenderState.get_slot, assign_slot_entity_to_slot]
  by_cases hx : x < rs.entity_to_slot.length
  · have hgd : ((if entity ≥ rs.entity_to_slot.length
        then listResize rs.entity_to_slot (entity + 1) U32MAX
        else rs.entity_to_slot).set entity rs.gpu_count).getD x 0
        = rs.entity_to_slot.getD x 0 := by
      rw [getD_set_ne _ _ _ _ _ hne]
      split
      · rename_i hgrow
        exact listResize_getD_of_lt _ _ _ _ _ hx (by omega)
      · rfl
    have hlen : ¬ (x ≥ ((if entity ≥ rs.entity_to_slot.length
        then listResize rs.entity_to_slot (entity + 1) U32MAX
        else rs.entity_to_slot).set entity rs.gpu_count).length) := by
      rw [List.length_set]
      split
      · rw [listResize_length]; omega
      · omega
    have hxr : ¬ x ≥ rs.entity_to_slot.length := by omega
    rw [if_neg hlen, if_neg hxr, hgd]
  · have hxr : x ≥ rs.entity_to_slot.length := by omega
    rw [if_pos hxr, List.length_set]
    split
    · rename_i hgrow
      rw [listResize_length]
      by_cases hxe : x ≥ entity + 1
      · rw [if_pos hxe]
      · rw [if_neg hxe]
        have hgd : ((listResize rs.entity_to_slot (entity + 1) U32MAX).set entity
            rs.gpu_count).getD x 0 = U32MAX := by
          rw [getD_set_ne _ _ _ _ _ hne]
          rw [listResize, if_neg (by omega)]
          exact getD_append_replicate _ _ _ _ _ (by omega) (by omega)
        rw [hgd, if_pos rfl]
    · rfl

/-- A handle that already resolves still resolves to the same record after
any spawn. -/
theorem World.get_spawn_other (w : World) (dd : EntityData) (x : Nat)
    (d : EntityData) (hx : w.get x = some d) : ((w.spawn dd).2).get x = some d := by
  simp only [World.get, World.spawn] at *
  rw [List.find?_append]
  rcases hfind : w.entities.find? (fun p => p.1 = x) with _ | p
  · simp [hfind] at hx
  · simp [hfind] at hx ⊢
    exact hx

/-- A live entity's handle is below the counter in a well-formed store. -/
theorem World.get_lt_nextEid (w : World) (x : Nat) (d : EntityData)
    (hwf : w.WF) (hx : w.get x = some d) : x < w.nextEid := by
  simp only [World.get] at hx
  rcases hfind : w.entities.find? (fun p => p.1 = x) with _ | p
  · simp [hfind] at hx
  · have hmem := List.mem_of_find?_eq_some hfind
    have hkey := List.find?_some hfind
    simp at hkey
    have := hwf p hmem
    omega

/-- C10: dispatching SpawnEntity(i) while i is already mapped creates a
second entity and overwrites the map entry to point at it; the first
entity stays alive in the store with all its components and keeps its
render slot, but is no longer reachable through the map — so the world
holds two live entities whose ExternalId is the same i. -/
theorem spawn_on_mapped_id_orphans_previous (cmd : Command) (w : World)
    (m : EntityMap) (rs : RenderState) (e s : Nat) (d : EntityData)
    (hc : cmd.cmd_type = CommandType.SpawnEntity)
    (hm : m.get cmd.entity_id = some e)
    (hw : w.get e = some d)
    (hd : d.externalId = cmd.entity_id)
    (hwf : w.WF)
    (hs : rs.get_slot e = some s) :
    (process_single_command cmd w m rs).1.get w.nextEid
        = some (defaultEntityData cmd.entity_id) ∧
    (process_single_command cmd w m rs).2.1.get cmd.entity_id = some w.nextEid ∧
    w.nextEid ≠ e ∧
    (process_single_command cmd w m rs).1.get e = some d ∧
    (process_single_command cmd w m rs).2.2.get_slot e = some s ∧
    (defaultEntityData cmd.entity_id).externalId = d.externalId := by
  obtain ⟨ct, id, pl⟩ := cmd
  simp only at hc
  subst hc
  have helt : e < w.nextEid := World.get_lt_nextEid w e d hwf hw
  simp only [process_single_command] at *
  refine ⟨World.get_spawn_self w _ hwf, EntityMap.get_insert_self m id w.nextEid,
    by omega, World.get_spawn_other w _ e d hw, ?_, by simp [defaultEntityData, hd]⟩
  rw [get_slot_write_slot, get_slot_assign_slot_other _ _ _ (by simp [World.spawn]; omega)]
  exact hs

instance (w : World) : Decidable w.WF :=
  List.decidableBAll (fun (p : Nat × EntityData) => p.1 < w.nextEid) w.entities

/-- The dispatcher state after one SpawnEntity(5) on a fresh engine. -/
def spawnOnceState : World × EntityMap × RenderState :=
  process_commands [cmdSpawn 5] World.empty EntityMap.new RenderState.new

/-- Witness for C10: SpawnEntity(5) dispatched a second time. -/
theorem spawn_on_mapped_id_orphans_previous_witness :
    ((cmdSpawn 5).cmd_type = CommandType.SpawnEntity ∧
     spawnOnceState.2.1.get (cmdSpawn 5).entity_id = some 0 ∧
     spawnOnceState.1.get 0 = some (defaultEntityData 5) ∧
     (defaultEntityData 5).externalId = (cmdSpawn 5).entity_id ∧
     spawnOnceState.1.WF ∧
     spawnOnceState.2.2.get_slot 0 = some 0) ∧
    ((process_single_command (cmdSpawn 5) spawnOnceState.1 spawnOnceState.2.1
        spawnOnceState.2.2).1.get spawnOnceState.1.nextEid
        = some (defaultEntityData (cmdSpawn 5).entity_id) ∧
     (process_single_command (cmdSpawn 5) spawnOnceState.1 spawnOnceState.2.1
        spawnOnceState.2.2).2.1.get (cmdSpawn 5).entity_id
        = some spawnOnceState.1.nextEid ∧
     spawnOnceState.1.nextEid ≠ 0 ∧
     (process_single_command (cmdSpawn 5) spawnOnceState.1 spawnOnceState.2.1
        spawnOnceState.2.2).1.get 0 = some (defaultEntityData 5) ∧
     (process_single_command (cmdSpawn 5) spawnOnceState.1 spawnOnceState.2.1
        spawnOnceState.2.2).2.2.get_slot 0 = some 0 ∧
     (defaultEntityData (cmdSpawn 5).entity_id).externalId
        = (defaultEntityData 5).externalId) :=
  ⟨⟨by decide, by decide, by decide, by decide, by decide, by decide⟩,
   spawn_on_mapped_id_orphans_previous (cmdSpawn 5) spawnOnceState.1
     spawnOnceState.2.1 spawnOnceState.2.2 0 0 (defaultEntityData 5)
     (by decide) (by decide) (by decide) (by decide) (by decide) (by decide)⟩

-- ---------------------------------------------------------------------------
-- C1: transform propagation reads pre-pass parent matrices
-- ---------------------------------------------------------------------------

/-- Modifying an entity rewrites exactly its own lookup. -/
theorem World.get_modify_self (w : World) (eid : Nat) (f : EntityData → EntityData) :
    (w.modify eid f).get eid = (w.get eid).map f := by
  simp only [World.modify, World.get]
  induction w.entities with
  | nil => rfl
  | cons p rest ih =>
    by_cases hp : p.1 = eid
    · simp [List.find?, hp]
    · simp only [List.map_cons, if_neg hp]
      rw [List.find?_cons_of_neg _ (by simp [hp]), List.find?_cons_of_neg _ (by simp [hp])]
      exact ih

/-- Modifying an entity leaves every other lookup unchanged. -/
theorem World.get_modify_other (w : World) (eid x : Nat)
    (f : EntityData → EntityData) (hne : x ≠ eid) :
    (w.modify eid f).get x = w.get x := by
  simp only [World.modify, World.get]
  induction w.entities with
  | nil => rfl
  | cons p rest ih =>
    by_cases hp : p.1 = eid
    · rw [List.map_cons, if_pos hp]
      rw [List.find?_cons_of_neg _ (by simp; omega), List.find?_cons_of_neg _ (by simp; omega)]
      exact ih
    · by_cases hx : p.1 = x
      · simp [List.find?, hp, hx, hne]
      · rw [List.map_cons, if_neg hp]
        rw [List.find?_cons_of_neg _ (by simp [hx]), List.find?_cons_of_neg _ (by simp [hx])]
        exact ih

/-- Folding the propagation writes over updates none of which are keyed to
the entity leaves its lookup unchanged. -/
theorem foldl_modify_modelMatrix_get_none (updates : List (Nat × Mat4)) :
    ∀ (w : World) (eid : Nat) (d : EntityData), w.get eid = some d →
      updates.filter (fun u => u.1 = eid) = [] →
      (updates.foldl (fun w u => w.modify u.1
          (fun d => { d with modelMatrix := u.2 })) w).get eid = some d := by
  induction updates with
  | nil => intro w eid d hget _; simpa using hget
  | cons u rest ih =>
    intro w eid d hget hfil
    by_cases hk : u.1 = eid
    · rw [List.filter_cons_of_pos (by simp [hk])] at hfil
      simp at hfil
    · rw [List.filter_cons_of_neg (by simp [hk])] at hfil
      rw [List.foldl_cons]
      refine ih _ _ _ ?_ hfil
      rw [World.get_modify_other _ _ _ _ (by omega)]
      exact hget

/-- Folding the propagation writes over updates exactly one of which is
keyed to the entity sets its model matrix to that update's value. -/
theorem foldl_modify_modelMatrix_get_one (updates : List (Nat × Mat4)) :
    ∀ (w : World) (eid : Nat) (d : EntityData) (v : Nat × Mat4),
      w.get eid = some d →
      updates.filter (fun u => u.1 = eid) = [v] →
      (updates.foldl (fun w u => w.modify u.1
          (fun d => { d with modelMatrix := u.2 })) w).get eid
        = some { d with modelMatrix := v.2 } := by
  induction updates with
  | nil => intro w eid d v _ hfil; simp at hfil
  | cons u rest ih =>
    intro w eid d v hget hfil
    rw [List.foldl_cons]
    by_cases hk : u.1 = eid
    · rw [List.filter_cons_of_pos (by simp [hk])] at hfil
      have huv : u = v ∧ rest.filter (fun u => u.1 = eid) = [] := by
        constructor
        · exact (List.cons_eq_cons.mp hfil).1
        · exact (List.cons_eq_cons.mp hfil).2
      have hget' : (w.modify u.1 (fun d => { d with modelMatrix := u.2 })).get eid
          = some { d with modelMatrix := u.2 } := by
        rw [hk, World.get_modify_self, hget]
        rfl
      rw [foldl_modify_modelMatrix_get_none rest _ _ _ hget' huv.2, huv.1]
    · rw [List.filter_cons_of_neg (by simp [hk])] at hfil
      refine ih _ _ _ _ ?_ hfil
      rw [World.get_modify_other _ _ _ _ (by omega)]
      exact hget

/-- The update builder of propagate_transforms (the query-loop body): the
batch entry produced for one entity, reading only pre-pass state. -/
def propagateUpdateOf (w : World) (ext_to_entity : List (Nat × Nat))
    (p : Nat × EntityData) : Option (Nat × Mat4) :=
  let d := p.2
  if !d.active then none
  else if d.parent = U32MAX then none
  else
    match lookupExt ext_to_entity d.parent with
    | none => none
    | some parent_entity =>
      match w.get parent_entity with
      | none => none
      | some pd => some (p.1, pd.modelMatrix.mul d.modelMatrix)

/-- propagate_transforms is the fold of the batched updates. -/
theorem propagate_transforms_eq (w : World) (ext : List (Nat × Nat)) :
    propagate_transforms w ext =
      (w.entities.filterMap (propagateUpdateOf w ext)).foldl
        (fun w u => w.modify u.1 (fun d => { d with modelMatrix := u.2 })) w := rfl

/-- The update builder keys every update to its source entity. -/
theorem propagateUpdateOf_key (w : World) (ext : List (Nat × Nat))
    (p : Nat × EntityData) (r : Nat × Mat4)
    (hr : propagateUpdateOf w ext p = some r) : r.1 = p.1 := by
  simp only [propagateUpdateOf] at hr
  split at hr
  · exact absurd hr (by simp)
  · split at hr
    · exact absurd hr (by simp)
    · split at hr
      · exact absurd hr (by simp)
      · split at hr
        · exact absurd hr (by simp)
        · cases hr
          rfl

/-- No update is keyed to an id absent from the source list. -/
theorem filterMap_filter_key_nil (l : List (Nat × EntityData))
    (f : Nat × EntityData → Option (Nat × Mat4))
    (hf : ∀ p r, f p = some r → r.1 = p.1) (eid : Nat)
    (hno : ∀ p ∈ l, p.1 ≠ eid) :
    (l.filterMap f).filter (fun u => u.1 = eid) = [] := by
  induction l with
  | nil => rfl
  | cons p rest ih =>
    rw [List.filterMap_cons]
    have hp : p.1 ≠ eid := hno p (by simp)
    have hrest : ∀ q ∈ rest, q.1 ≠ eid := fun q hq => hno q (by simp [hq])
    rcases hfp : f p with _ | r
    · exact ih hrest
    · rw [List.filter_cons_of_neg (by simp [hf p r hfp, hp])]
      exact ih hrest

/-- With unique keys, the updates keyed to one entity are exactly the image
of its own source entry. -/
theorem filterMap_filter_key_unique (l : List (Nat × EntityData))
    (f : Nat × EntityData → Option (Nat × Mat4))
    (hf : ∀ p r, f p = some r → r.1 = p.1) (eid : Nat) (d : EntityData)
    (hmem : (eid, d) ∈ l) (hnodup : (l.map Prod.fst).Nodup) :
    (l.filterMap f).filter (fun u => u.1 = eid)
      = (match f (eid, d) with | some r => [r] | none => []) := by
  induction l with
  | nil => simp at hmem
  | cons p rest ih =>
    rw [List.filterMap_cons]
    rw [List.map_cons, List.nodup_cons] at hnodup
    rcases List.mem_cons.mp hmem with hp | hrestmem
    · subst hp
      have hnorest : ∀ q ∈ rest, q.1 ≠ eid := by
        intro q hq he
        have hmm : q.1 ∈ rest.map Prod.fst := List.mem_map_of_mem Prod.fst hq
        rw [he] at hmm
        exact hnodup.1 hmm
      rcases hfp : f (eid, d) with _ | r
      · exact filterMap_filter_key_nil rest f hf eid hnorest
      · rw [List.filter_cons_of_pos (by simp [hf _ r hfp])]
        rw [filterMap_filter_key_nil rest f hf eid hnorest]
    · have hne : p.1 ≠ eid := by
        intro he
        have hmm : eid ∈ rest.map Prod.fst := by
          simpa using List.mem_map_of_mem Prod.fst hrestmem
        rw [← he] at hmm
        exact hnodup.1 hmm
      have := ih hrestmem hnodup.2
      rcases hfp : f p with _ | r
      · exact this
      · rw [List.filter_cons_of_neg (by simp [hf p r hfp, hne])]
        exact this

/-- A successful lookup exhibits list membership of the exact pair. -/
theorem World.mem_of_get (w : World) (eid : Nat) (d : EntityData)
    (hget : w.get eid = some d) : (eid, d) ∈ w.entities := by
  simp only [World.get] at hget
  rcases hfind : w.entities.find? (fun p => p.1 = eid) with _ | p
  · rw [hfind] at hget; simp at hget
  · rw [hfind] at hget
    simp at hget
    have hkey := List.find?_some hfind
    simp at hkey
    have hmem := List.mem_of_find?_eq_some hfind
    have : p = (eid, d) := by
      obtain ⟨k, v⟩ := p
      simp at hkey hget
      simp [hkey, hget]
    exact this ▸ hmem

/-- C1 amended: the propagation pass run by Engine::update batches every
read before any write, so the parent matrix it multiplies with is the
parent's PRE-pass matrix: every Active entity whose Parent resolves ends
the pass with `old(parent).modelMatrix * old(child).modelMatrix` — one
level of the hierarchy per pass, so a depth-3 chain is not fully
propagated within a single update. -/
theorem propagate_transforms_reads_prepass_parent (w : World)
    (ext : List (Nat × Nat)) (eid : Nat) (d : EntityData) (pe : Nat)
    (pd : EntityData)
    (hnodup : (w.entities.map Prod.fst).Nodup)
    (hget : w.get eid = some d)
    (hact : d.active = true)
    (hpar : d.parent ≠ U32MAX)
    (hres : lookupExt ext d.parent = some pe)
    (hpd : w.get pe = some pd) :
    (propagate_transforms w ext).get eid
      = some { d with modelMatrix := pd.modelMatrix.mul d.modelMatrix } := by
  rw [propagate_transforms_eq]
  have hfval : propagateUpdateOf w ext (eid, d)
      = some (eid, pd.modelMatrix.mul d.modelMatrix) := by
    simp only [propagateUpdateOf, hact, Bool.not_true, if_neg, hpar, hres, hpd]
    simp
  have hfil := filterMap_filter_key_unique w.entities (propagateUpdateOf w ext)
    (propagateUpdateOf_key w ext) eid d (World.mem_of_get w eid d hget) hnodup
  rw [hfval] at hfil
  exact foldl_modify_modelMatrix_get_one _ _ _ _ _ hget hfil

/-- A fresh engine holding a depth-3 chain: grandparent 0, parent 1 and
child 2, each Active with local position x = 1 and identity rotation and
scale, linked 2 → 1 → 0 through SetParent. -/
def chainEngine : Engine :=
  Engine.new.processCommands
    [cmdSpawn 0, cmdSpawn 1, cmdSpawn 2,
     cmdSetPositionX 0 oneF32Bytes, cmdSetPositionX 1 oneF32Bytes,
     cmdSetPositionX 2 oneF32Bytes, cmdSetParent 1 0, cmdSetParent 2 1]

/-- The translation-by-(1,0,0) matrix every chain entity has as its local
(post-transform-system, pre-propagation) ModelMatrix. -/
def unitXTranslation : Mat4 :=
  { xAxis := ⟨1, 0, 0, 0⟩
    yAxis := ⟨0, 1, 0, 0⟩
    zAxis := ⟨0, 0, 1, 0⟩
    wAxis := ⟨1, 0, 0, 1⟩ }

/-- C1 counterexample: on the depth-3 chain (all three entities Active and
mapped, every local matrix the x-translation by 1) a single Engine::update
leaves the grandchild with translation x = 2, not the x = 3 that
`grandparent_world * parent_local * child_local` (= 3 here) demands —
propagate_transforms reads the parent's pre-pass matrix, so the grandchild
is exactly one level short. -/
theorem depth3_chain_not_propagated_in_one_update :
    ((transform_system chainEngine.world).get 0).map (fun d => d.modelMatrix)
        = some unitXTranslation ∧
    ((transform_system chainEngine.world).get 1).map (fun d => d.modelMatrix)
        = some unitXTranslation ∧
    ((transform_system chainEngine.world).get 2).map (fun d => d.modelMatrix)
        = some unitXTranslation ∧
    (chainEngine.world.get 2).map (fun d => (d.parent, d.active)) = some (1, true) ∧
    (chainEngine.world.get 1).map (fun d => (d.parent, d.active)) = some (0, true) ∧
    lookupExt chainEngine.entity_map.iter_mapped 0 = some 0 ∧
    lookupExt chainEngine.entity_map.iter_mapped 1 = some 1 ∧
    (unitXTranslation.mul (unitXTranslation.mul unitXTranslation)).wAxis.x = 3 ∧
    ((chainEngine.update 0).world.get 2).map (fun d => d.modelMatrix.wAxis.x)
        = some 2 := by
  exact ⟨by decide, by decide, by decide, by decide, by decide, by decide,
    by decide, by decide, by decide⟩

instance : Inhabited EntityData := ⟨defaultEntityData 0⟩

/-- Witness for the amended C1 theorem on the concrete chain world (after
the transform system, entity 2's matrix becomes pre-pass parent matrix
times its own pre-pass matrix). -/
theorem propagate_transforms_reads_prepass_parent_witness :
    ((((transform_system chainEngine.world).entities.map Prod.fst).Nodup) ∧
      (transform_system chainEngine.world).get 2
        = some ((transform_system chainEngine.world).get 2).iget ∧
      (((transform_system chainEngine.world).get 2).iget).active = true ∧
      (((transform_system chainEngine.world).get 2).iget).parent ≠ U32MAX ∧
      lookupExt chainEngine.entity_map.iter_mapped
        ((((transform_system chainEngine.world).get 2).iget)).parent = some 1 ∧
      (transform_system chainEngine.world).get 1
        = some ((transform_system chainEngine.world).get 1).iget) ∧
    (propagate_transforms (transform_system chainEngine.world)
        chainEngine.entity_map.iter_mapped).get 2
      = some { ((transform_system chainEngine.world).get 2).iget with
          modelMatrix :=
            ((((transform_system chainEngine.world).get 1).iget)).modelMatrix.mul
              (((((transform_system chainEngine.world).get 2).iget)).modelMatrix) } :=
  ⟨⟨by decide, by decide, by decide, by decide, by decide, by decide⟩,
   propagate_transforms_reads_prepass_parent (transform_system chainEngine.world)
     chainEngine.entity_map.iter_mapped 2
     ((transform_system chainEngine.world).get 2).iget 1
     ((transform_system chainEngine.world).get 1).iget
     (by decide) (by decide) (by decide) (by decide) (by decide) (by decide)⟩

-- ---------------------------------------------------------------------------
-- C9: maximal-prefix decoding and the published read_head
-- ---------------------------------------------------------------------------

/-- Reduction of one wrap of the circular offset arithmetic. -/
theorem mod_two_cap (cap a : Nat) (hc : 0 < cap) (h : a < 2 * cap) :
    a % cap = if a < cap then a else a - cap := by
  split
  · exact Nat.mod_eq_of_lt (by omega)
  · rw [Nat.mod_eq_sub_mod (by omega), Nat.mod_eq_of_lt (by omega)]

/-- Advancing the read pointer by `pos ≤ avail` bytes leaves exactly
`avail - pos` bytes available. -/
theorem availAt_shift (cap wh rh0 pos : Nat) (hw : wh < cap) (hr : rh0 < cap)
    (hpos : pos ≤ availAt cap wh rh0) :
    availAt cap wh ((rh0 + pos) % cap) = availAt cap wh rh0 - pos := by
  have hc : 0 < cap := by omega
  have havail : availAt cap wh rh0 ≤ cap := by
    simp only [availAt]; split <;> omega
  rw [mod_two_cap cap (rh0 + pos) hc (by omega)]
  simp only [availAt] at *
  split at hpos <;> split <;> split <;> omega

/-- With both heads in range, the ring is empty exactly when they agree. -/
theorem availAt_eq_zero_iff (cap wh rh : Nat) (hw : wh < cap) (hr : rh < cap) :
    availAt cap wh rh = 0 ↔ rh = wh := by
  simp only [availAt]
  split <;> omega

/-- Reading the linearized window at index i is the circular byte read at
read-start plus i. -/
theorem read_bytes_getD (rb : RingState) (rh0 n i : Nat) (hi : i < n) :
    (rb.read_bytes rh0 n).getD i 0 = rb.read_byte (rh0 + i) := by
  simp only [RingState.read_bytes, List.getD]
  rw [List.get?_eq_getElem?, List.getElem?_map, List.getElem?_range hi]
  rfl

/-- The linearized window has exactly the available length. -/
theorem read_bytes_length (rb : RingState) (rh0 n : Nat) :
    (rb.read_bytes rh0 n).length = n := by
  simp [RingState.read_bytes]

/-- Circular reads ignore a pre-wrapped base offset. -/
theorem read_byte_mod_base (rb : RingState) (a k : Nat) :
    rb.read_byte (a % rb.capacity + k) = rb.read_byte (a + k) := by
  simp only [RingState.read_byte, Nat.mod_add_mod]

/-- A command message is at least its 5-byte header. -/
theorem message_size_ge_five (ct : CommandType) : 5 ≤ ct.message_size := by
  simp [CommandType.message_size]

/-- The flat-parser position is stuck: end of input, unknown type byte, or
truncated message. -/
def ParseStuck (data : List Nat) (pos : Nat) : Prop :=
  pos ≥ data.length ∨
  CommandType.from_u8 (data.getD pos 0) = none ∨
  (∃ ct, CommandType.from_u8 (data.getD pos 0) = some ct ∧
    pos + ct.message_size > data.length)

/-- One whole-message advance of the flat decoder. -/
def ParseStep (data : List Nat) (p q : Nat) : Prop :=
  p < data.length ∧ ∃ ct, CommandType.from_u8 (data.getD p 0) = some ct ∧
    p + ct.message_size ≤ data.length ∧ q = p + ct.message_size

/-- The parser's final position is reached by whole-message steps and is
the first stuck position. -/
theorem parseGo_reaches_stuck (data : List Nat) :
    ∀ fuel pos, data.length - pos ≤ fuel →
      ParseStuck data (parseGo data fuel pos).2 ∧
      Relation.ReflTransGen (ParseStep data) pos (parseGo data fuel pos).2 := by
  intro fuel
  induction fuel with
  | zero =>
    intro pos hf
    refine ⟨Or.inl ?_, Relation.ReflTransGen.refl⟩
    simp only [parseGo]
    omega
  | succ fuel ih =>
    intro pos hf
    rw [parseGo]
    by_cases hlt : pos < data.length
    · rw [if_pos hlt]
      rcases hct : CommandType.from_u8 (data.getD pos 0) with _ | ct
      · exact ⟨Or.inr (Or.inl hct), Relation.ReflTransGen.refl⟩
      · dsimp only
        by_cases hmsg : pos + ct.message_size > data.length
        · rw [if_pos hmsg]
          exact ⟨Or.inr (Or.inr ⟨ct, hct, hmsg⟩), Relation.ReflTransGen.refl⟩
        · rw [if_neg hmsg]
          have hm5 := message_size_ge_five ct
          have hrec := ih (pos + ct.message_size) (by omega)
          refine ⟨hrec.1, Relation.ReflTransGen.head ?_ hrec.2⟩
          exact ⟨hlt, ct, hct, by omega, rfl⟩
    · rw [if_neg hlt]
      exact ⟨Or.inl (by omega), Relation.ReflTransGen.refl⟩

/-- The parser loop is fuel-irrelevant once the fuel covers the remaining
bytes. -/
theorem parseGo_fuel_congr (data : List Nat) :
    ∀ f1, ∀ f2 pos, data.length - pos ≤ f1 → data.length - pos ≤ f2 →
      parseGo data f1 pos = parseGo data f2 pos := by
  intro f1
  induction f1 with
  | zero =>
    intro f2 pos h1 h2
    match f2 with
    | 0 => rfl
    | f2 + 1 =>
      rw [parseGo, parseGo, if_neg (by omega)]
  | succ f1 ih =>
    intro f2 pos h1 h2
    match f2 with
    | 0 =>
      rw [parseGo, parseGo, if_neg (by omega)]
    | f2 + 1 =>
      rw [parseGo]
      conv_rhs => rw [parseGo]
      by_cases hlt : pos < data.length
      · rw [if_pos hlt, if_pos hlt]
        rcases hct : CommandType.from_u8 (data.getD pos 0) with _ | ct
        · rfl
        · dsimp only
          by_cases hmsg : pos + ct.message_size > data.length
          · rw [if_pos hmsg, if_pos hmsg]
          · rw [if_neg hmsg, if_neg hmsg]
            have hm5 := message_size_ge_five ct
            rw [ih f2 (pos + ct.message_size) (by omega) (by omega)]
      · rw [if_neg hlt, if_neg hlt]

/-- The linearized unread window of the ring: the `available` circularly
contiguous bytes starting at read_head. -/
def RingState.window (rb : RingState) : List Nat :=
  rb.read_bytes rb.read_head (availAt rb.capacity rb.write_head rb.read_head)

/-- The drain loop agrees with the flat parser over the linearized window:
same decoded commands, and a final head exactly `consumed` bytes past the
starting read_head (modulo capacity). -/
theorem drainLoop_eq_parseGo (rb : RingState) (wh rh0 : Nat)
    (hw : wh < rb.capacity) (hr : rh0 < rb.capacity) :
    ∀ fuel pos, pos ≤ availAt rb.capacity wh rh0 →
      availAt rb.capacity wh rh0 - pos ≤ fuel →
      drainLoop rb wh fuel ((rh0 + pos) % rb.capacity)
        = ((parseGo (rb.read_bytes rh0 (availAt rb.capacity wh rh0)) fuel pos).1,
           (rh0 + (parseGo (rb.read_bytes rh0 (availAt rb.capacity wh rh0)) fuel
             pos).2) % rb.capacity) := by
  intro fuel
  induction fuel with
  | zero => intro pos _ _; rfl
  | succ fuel ih =>
    intro pos hpos hf
    have hc : 0 < rb.capacity := by omega
    have hWlen : (rb.read_bytes rh0 (availAt rb.capacity wh rh0)).length
        = availAt rb.capacity wh rh0 := read_bytes_length rb rh0 _
    have hshift : availAt rb.capacity wh ((rh0 + pos) % rb.capacity)
        = availAt rb.capacity wh rh0 - pos := availAt_shift _ _ _ _ hw hr hpos
    have hrlt : (rh0 + pos) % rb.capacity < rb.capacity := Nat.mod_lt _ hc
    by_cases hend : pos < availAt rb.capacity wh rh0
    · have hne : (rh0 + pos) % rb.capacity ≠ wh := by
        intro heq
        have := (availAt_eq_zero_iff rb.capacity wh _ hw hrlt).mpr heq
        omega
      have hbyte : rb.read_byte ((rh0 + pos) % rb.capacity)
          = (rb.read_bytes rh0 (availAt rb.capacity wh rh0)).getD pos 0 := by
        rw [read_bytes_getD rb rh0 _ pos hend]
        have := read_byte_mod_base rb (rh0 + pos) 0
        simpa using this
      rw [drainLoop, if_neg hne, hbyte]
      conv_rhs => rw [parseGo]
      rw [if_pos (by omega)]
      rcases hct : CommandType.from_u8
          ((rb.read_bytes rh0 (availAt rb.capacity wh rh0)).getD pos 0) with _ | ct
      · rfl
      · dsimp only
        have hm5 := message_size_ge_five ct
        by_cases hmsg : pos + ct.message_size
            > (rb.read_bytes rh0 (availAt rb.capacity wh rh0)).length
        · rw [if_pos hmsg, if_pos (by rw [hshift]; omega)]
      -- drain returns ([], rh); parse returns ([], pos): rhs pair agrees
        · rw [if_neg hmsg, if_neg (by rw [hshift]; omega)]
          rw [hWlen] at hmsg
          dsimp only
          have hbytes : ∀ k, k ≥ 1 → pos + k < availAt rb.capacity wh rh0 →
              rb.read_byte ((rh0 + pos) % rb.capacity + k)
                = (rb.read_bytes rh0 (availAt rb.capacity wh rh0)).getD (pos + k) 0 := by
            intro k _ hk
            rw [read_bytes_getD rb rh0 _ _ hk, read_byte_mod_base]
            congr 1
            omega
          have hm45 : ct.message_size = 5 + ct.payload_size := by
            simp only [CommandType.message_size]
          have hids : ∀ i, i < 4 →
              (rb.read_bytes ((rh0 + pos) % rb.capacity + 1) 4).getD i 0
                = (rb.read_bytes rh0 (availAt rb.capacity wh rh0)).getD (pos + (1 + i)) 0 := by
            intro i hi
            rw [read_bytes_getD rb _ 4 i hi]
            rw [show (rh0 + pos) % rb.capacity + 1 + i
                = (rh0 + pos) % rb.capacity + (1 + i) from by omega]
            exact hbytes (1 + i) (by omega) (by omega)
          have h0 := hids 0 (by omega)
          have h1 := hids 1 (by omega)
          have h2 := hids 2 (by omega)
          have h3 := hids 3 (by omega)
          rw [show pos + (1 + 0) = pos + 1 from by omega] at h0
          rw [show pos + (1 + 1) = pos + 2 from by omega] at h1
          rw [show pos + (1 + 2) = pos + 3 from by omega] at h2
          rw [show pos + (1 + 3) = pos + 4 from by omega] at h3
          have hpayload :
              (List.range 16).map (fun i => if i < ct.payload_size then
                (rb.read_bytes ((rh0 + pos) % rb.capacity + 5) ct.payload_size).getD i 0
                else 0)
              = (List.range 16).map (fun i => if i < ct.payload_size then
                (rb.read_bytes rh0 (availAt rb.capacity wh rh0)).getD (pos + 5 + i) 0
                else 0) := by
            refine List.map_congr_left ?_
            intro i _
            by_cases hip : i < ct.payload_size
            · rw [if_pos hip, if_pos hip]
              rw [read_bytes_getD rb _ ct.payload_size i hip]
              rw [show (rh0 + pos) % rb.capacity + 5 + i
                  = (rh0 + pos) % rb.capacity + (5 + i) from by omega]
              rw [hbytes (5 + i) (by omega) (by omega)]
              congr 1
              omega
            · rw [if_neg hip, if_neg hip]
          have hnext : ((rh0 + pos) % rb.capacity + ct.message_size) % rb.capacity
              = (rh0 + (pos + ct.message_size)) % rb.capacity := by
            rw [Nat.mod_add_mod]
            congr 1
            omega
          have hrec := ih (pos + ct.message_size) (by omega) (by omega)
          rw [hnext, hrec, h0, h1, h2, h3, hpayload]
    · have hposeq : pos = availAt rb.capacity wh rh0 := by omega
      have heq : (rh0 + pos) % rb.capacity = wh := by
        have h0 : availAt rb.capacity wh ((rh0 + pos) % rb.capacity) = 0 := by omega
        exact (availAt_eq_zero_iff rb.capacity wh _ hw hrlt).mp h0
      rw [drainLoop, if_pos heq]
      conv_rhs => rw [parseGo]
      rw [if_neg (by omega), heq]

/-- C9: Both command decoders decode the maximal valid prefix and stop
cleanly.  drain() returns exactly the flat parse of the linearized unread
window together with a published read_head advanced (modulo capacity) by
precisely the number of window bytes the flat parser consumed; the common
stopping position is stuck (end of window, unrecognized type byte, or fewer
remaining bytes than message_size) and is reached from the start of the
window by whole-message steps, so every command decoded before it is kept. -/
theorem drain_decodes_maximal_prefix (rb : RingState)
    (hw : rb.write_head < rb.capacity) (hr : rb.read_head < rb.capacity) :
    rb.drain = (parse_commands rb.window,
      (rb.read_head + (parseRun rb.window 0).2) % rb.capacity) ∧
    ParseStuck rb.window (parseRun rb.window 0).2 ∧
    Relation.ReflTransGen (ParseStep rb.window) 0 (parseRun rb.window 0).2 := by
  have hWlen : (rb.read_bytes rb.read_head
      (availAt rb.capacity rb.write_head rb.read_head)).length
      = availAt rb.capacity rb.write_head rb.read_head :=
    read_bytes_length rb rb.read_head _
  have havail : availAt rb.capacity rb.write_head rb.read_head ≤ rb.capacity := by
    simp only [availAt]; split <;> omega
  have hd := drainLoop_eq_parseGo rb rb.write_head rb.read_head hw hr
    rb.capacity 0 (by omega) (by omega)
  rw [show (rb.read_head + 0) % rb.capacity = rb.read_head from by
    rw [Nat.add_zero, Nat.mod_eq_of_lt hr]] at hd
  have hfc := parseGo_fuel_congr
    (rb.read_bytes rb.read_head (availAt rb.capacity rb.write_head rb.read_head))
    rb.capacity
    (rb.read_bytes rb.read_head
      (availAt rb.capacity rb.write_head rb.read_head)).length
    0 (by omega) (by omega)
  rw [hfc] at hd
  have hstuck := parseGo_reaches_stuck
    (rb.read_bytes rb.read_head (availAt rb.capacity rb.write_head rb.read_head))
    (rb.read_bytes rb.read_head
      (availAt rb.capacity rb.write_head rb.read_head)).length
    0 (by omega)
  exact ⟨hd, hstuck.1, hstuck.2⟩

/-- Concrete instantiation of the drain theorem: an 8-byte ring holding one
complete SpawnEntity message followed by an unrecognized type byte. -/
theorem drain_decodes_maximal_prefix_witness :
    ((6 : Nat) < 8 ∧ (0 : Nat) < 8) ∧
    ((RingState.mk 8 [1, 7, 0, 0, 0, 255, 0, 0] 6 0).drain
        = (parse_commands (RingState.mk 8 [1, 7, 0, 0, 0, 255, 0, 0] 6 0).window,
           (0 + (parseRun (RingState.mk 8 [1, 7, 0, 0, 0, 255, 0, 0] 6 0).window
             0).2) % 8) ∧
      ParseStuck (RingState.mk 8 [1, 7, 0, 0, 0, 255, 0, 0] 6 0).window
        (parseRun (RingState.mk 8 [1, 7, 0, 0, 0, 255, 0, 0] 6 0).window 0).2 ∧
      Relation.ReflTransGen
        (ParseStep (RingState.mk 8 [1, 7, 0, 0, 0, 255, 0, 0] 6 0).window) 0
        (parseRun (RingState.mk 8 [1, 7, 0, 0, 0, 255, 0, 0] 6 0).window 0).2) ∧
    (RingState.mk 8 [1, 7, 0, 0, 0, 255, 0, 0] 6 0).drain
      = ([⟨CommandType.SpawnEntity, 7,
           [0, 0, 0, 0, 0, 0, 0, 0, 0, 0, 0, 0, 0, 0, 0, 0]⟩], 5) :=
  ⟨⟨by decide, by decide⟩,
   drain_decodes_maximal_prefix (RingState.mk 8 [1, 7, 0, 0, 0, 255, 0, 0] 6 0)
     (by decide) (by decide),
   by decide⟩

-- ---------------------------------------------------------------------------
-- SetParent idempotence (command_processor.rs:306-384)
-- ---------------------------------------------------------------------------

/-- Membership of an external child id among an entity's inline Children
slots. -/
def EntityData.inlineHasChild (d : EntityData) (c : Nat) : Prop :=
  c ∈ d.children.slots

/-- Membership of an external child id among an entity's OverflowChildren
items (absent component reads as the empty list). -/
def EntityData.overflowHasChild (d : EntityData) (c : Nat) : Prop :=
  c ∈ d.overflowChildren.getD []

instance (d : EntityData) (c : Nat) : Decidable (d.inlineHasChild c) :=
  inferInstanceAs (Decidable (c ∈ d.children.slots))

instance (d : EntityData) (c : Nat) : Decidable (d.overflowHasChild c) :=
  inferInstanceAs (Decidable (c ∈ d.overflowChildren.getD []))

theorem findIdx_append_singleton (c : Nat) :
    ∀ (l : List Nat) (i : Nat), c ∉ l →
      (l ++ [c]).findIdx? (fun s => s = c) i = some (i + l.length) := by
  intro l
  induction l with
  | nil => intro i _; simp [List.findIdx?]
  | cons a t ih =>
    intro i hnl
    have ha : ¬(a = c) := by
      intro h; exact hnl (h ▸ List.mem_cons_self a t)
    simp only [List.cons_append, List.findIdx?, List.append_eq]
    rw [if_neg (by simpa using ha)]
    rw [ih (i + 1) (fun h => hnl (List.mem_cons_of_mem a h))]
    congr 1
    simp only [List.length_cons]
    omega

theorem findIdx_none_of_not_mem (c : Nat) :
    ∀ (l : List Nat) (i : Nat), c ∉ l →
      l.findIdx? (fun s => s = c) i = none := by
  intro l
  induction l with
  | nil => intro i _; rfl
  | cons a t ih =>
    intro i hnl
    have ha : ¬(a = c) := by
      intro h; exact hnl (h ▸ List.mem_cons_self a t)
    simp only [List.findIdx?]
    rw [if_neg (by simpa using ha)]
    exact ih (i + 1) (fun h => hnl (List.mem_cons_of_mem a h))

theorem set_append_length (x c : Nat) :
    ∀ (l : List Nat), (l ++ [c]).set l.length x = l ++ [x] := by
  intro l
  induction l with
  | nil => rfl
  | cons a t ih => simpa [List.set] using ih

theorem getD_append_length (c : Nat) :
    ∀ (l : List Nat), (l ++ [c]).getD l.length 0 = c := by
  intro l
  induction l with
  | nil => rfl
  | cons a t ih => simpa using ih

theorem filter_ne_append_singleton (c : Nat) (l : List Nat) (h : c ∉ l) :
    (l ++ [c]).filter (fun id => !(id = c)) = l := by
  rw [List.filter_append]
  have h1 : l.filter (fun id => !(id = c)) = l := by
    refine List.filter_eq_self.mpr ?_
    intro x hx
    have hxc : x ≠ c := fun he => h (he ▸ hx)
    simpa using hxc
  have h2 : [c].filter (fun id => !(id = c)) = ([] : List Nat) := by simp
  rw [h1, h2, List.append_nil]

/-- Re-applying SetParent when the child is already parented to p and sits
exactly once in p's lists (inline at the end below capacity, or at the end
of the overflow items with the inline slots full): the parent record is
returned to exactly its pre-call value, the child keeps Parent = p, and no
other entity changes. -/
theorem setparent_apply_again (w : World) (m : EntityMap) (rs : RenderState)
    (cmd : Command) (child p ce pe : Nat) (cd pd : EntityData)
    (hct : cmd.cmd_type = CommandType.SetParent)
    (hid : cmd.entity_id = child)
    (hpl : cmd.payloadU32 0 = p)
    (hchild : m.get child = some ce)
    (hp : m.get p = some pe)
    (hcp : ce ≠ pe)
    (hpMAX : p ≠ U32MAX)
    (hce : w.get ce = some cd)
    (hpe : w.get pe = some pd)
    (hre : cd.parent = p)
    (hshape :
      (∃ l, pd.children.slots = l ++ [child] ∧ child ∉ l ∧
        l.length < Children.MAX_CHILDREN ∧ child ∉ pd.overflowChildren.getD []) ∨
      (pd.children.slots.length = Children.MAX_CHILDREN ∧
        child ∉ pd.children.slots ∧
        ∃ items, pd.overflowChildren = some (items ++ [child]) ∧ child ∉ items)) :
    (process_single_command cmd w m rs).2.1 = m ∧
    (process_single_command cmd w m rs).1.get ce = some { cd with parent := p } ∧
    (process_single_command cmd w m rs).1.get pe = some pd ∧
    ∀ e, e ≠ ce → e ≠ pe → (process_single_command cmd w m rs).1.get e = w.get e := by
  have hpc : pe ≠ ce := Ne.symm hcp
  rcases hshape with ⟨l, hsl, hnl, hlen, _hovcl⟩ | ⟨hlen32, hncin, items, hovf, hni⟩
  · have hfi : pd.children.slots.findIdx? (fun s => s = child) = some l.length := by
      rw [hsl, findIdx_append_singleton child l 0 hnl]
      simp
    have hrm : pd.children.remove child = (⟨l⟩, true) := by
      simp only [Children.remove, hfi]
      rw [hsl]
      simp only [List.length_append, List.length_cons, List.length_nil,
        Nat.zero_add, Nat.add_sub_cancel]
      rw [getD_append_length, set_append_length, List.take_left]
    have hnotfull : ¬(l.length ≥ Children.MAX_CHILDREN) := Nat.not_le.mpr hlen
    have hred : process_single_command cmd w m rs
        = ((((w.modify pe (fun d => { d with children := (⟨l⟩ : Children) })).modify ce
              (fun d => { d with parent := p })).modify pe
              (fun d => { d with children := (⟨l ++ [child]⟩ : Children) }),
           m, markTransformOf rs ce)) := by
      simp [process_single_command, hct, hid, hpl, hchild, hp, hce, hpe,
        hre, hrm, hnotfull, hpMAX, hpc, hcp, Children.add,
        World.get_modify_self, World.get_modify_other]
    refine ⟨by rw [hred], ?_, ?_, ?_⟩
    · rw [hred]
      dsimp only
      rw [World.get_modify_other _ _ _ _ hcp, World.get_modify_self,
          World.get_modify_other _ _ _ _ hcp, hce]
      rfl
    · rw [hred]
      dsimp only
      rw [World.get_modify_self, World.get_modify_other _ _ _ _ hpc,
          World.get_modify_self, hpe]
      rw [← hsl]
      rfl
    · intro e he1 he2
      rw [hred]
      dsimp only
      rw [World.get_modify_other _ _ _ _ he2, World.get_modify_other _ _ _ _ he1,
          World.get_modify_other _ _ _ _ he2]
  · have hrm : pd.children.remove child = (pd.children, false) := by
      simp only [Children.remove, findIdx_none_of_not_mem child pd.children.slots 0 hncin]
    have hfull : pd.children.slots.length ≥ Children.MAX_CHILDREN := hlen32.ge
    rcases items with _ | ⟨a, t⟩
    · have hovf' : pd.overflowChildren = some [child] := by simpa using hovf
      have hred : process_single_command cmd w m rs
          = ((((((w.modify pe (fun d => { d with children := pd.children })).modify pe
                  (fun d => { d with overflowChildren := some ([] : List Nat) })).modify pe
                  (fun d => { d with overflowChildren := none })).modify ce
                  (fun d => { d with parent := p })).modify pe
                  (fun d => { d with children := pd.children })).modify pe
                  (fun d => { d with overflowChildren := some [child] }),
             m, markTransformOf rs ce) := by
        simp [process_single_command, hct, hid, hpl, hchild, hp, hce, hpe,
          hre, hrm, hovf', hfull, hpMAX, hpc, hcp, Children.add,
          World.get_modify_self, World.get_modify_other]
      refine ⟨by rw [hred], ?_, ?_, ?_⟩
      · rw [hred]
        dsimp only
        rw [World.get_modify_other _ _ _ _ hcp, World.get_modify_other _ _ _ _ hcp,
            World.get_modify_self, World.get_modify_other _ _ _ _ hcp,
            World.get_modify_other _ _ _ _ hcp, World.get_modify_other _ _ _ _ hcp,
            hce]
        rfl
      · rw [hred]
        dsimp only
        rw [World.get_modify_self, World.get_modify_self,
            World.get_modify_other _ _ _ _ hpc, World.get_modify_self,
            World.get_modify_self, World.get_modify_self, hpe]
        rw [← hovf']
        rfl
      · intro e he1 he2
        rw [hred]
        dsimp only
        rw [World.get_modify_other _ _ _ _ he2, World.get_modify_other _ _ _ _ he2,
            World.get_modify_other _ _ _ _ he1, World.get_modify_other _ _ _ _ he2,
            World.get_modify_other _ _ _ _ he2, World.get_modify_other _ _ _ _ he2]
    · have hkept : (a :: (t ++ [child])).filter (fun id => !(id = child)) = a :: t := by
        have h := filter_ne_append_singleton child (a :: t) hni
        simpa using h
      have hred : process_single_command cmd w m rs
          = (((((w.modify pe (fun d => { d with children := pd.children })).modify pe
                  (fun d => { d with overflowChildren := some (a :: t) })).modify ce
                  (fun d => { d with parent := p })).modify pe
                  (fun d => { d with children := pd.children })).modify pe
                  (fun d => { d with overflowChildren := some ((a :: t) ++ [child]) }),
             m, markTransformOf rs ce) := by
        simp [-List.filter_cons, -List.filter_append, process_single_command,
          hct, hid, hpl, hchild, hp, hce, hpe,
          hre, hrm, hovf, hkept, hfull, hpMAX, hpc, hcp, Children.add,
          World.get_modify_self, World.get_modify_other]
      refine ⟨by rw [hred], ?_, ?_, ?_⟩
      · rw [hred]
        dsimp only
        rw [World.get_modify_other _ _ _ _ hcp, World.get_modify_other _ _ _ _ hcp,
            World.get_modify_self, World.get_modify_other _ _ _ _ hcp,
            World.get_modify_other _ _ _ _ hcp, hce]
        rfl
      · rw [hred]
        dsimp only
        rw [World.get_modify_self, World.get_modify_self,
            World.get_modify_other _ _ _ _ hpc, World.get_modify_self,
            World.get_modify_self, hpe]
        rw [← hovf]
        rfl
      · intro e he1 he2
        rw [hred]
        dsimp only
        rw [World.get_modify_other _ _ _ _ he2, World.get_modify_other _ _ _ _ he2,
            World.get_modify_other _ _ _ _ he1, World.get_modify_other _ _ _ _ he2,
            World.get_modify_other _ _ _ _ he2]

-- ---------------------------------------------------------------------------
-- flush_pending_despawns invariants (render_state.rs:551-593)
-- ---------------------------------------------------------------------------

theorem getD_set_self {α : Type} (l : List α) (i : Nat) (v d : α) (h : i < l.length) :
    (l.set i v).getD i d = v := by
  simp [List.getD, List.getElem?_set_self, h]

/-- Mutual consistency of the slot maps RenderState maintains between
frames: the live slots fit in slot_to_entity, every live slot's entity maps
back to it, every mapped entity's slot is live and maps back, and the live
count is below the u32::MAX sentinel. -/
def RenderState.SlotMapWF (rs : RenderState) : Prop :=
  rs.gpu_count ≤ rs.slot_to_entity.length ∧
  (∀ s, s < rs.gpu_count →
    rs.slot_to_entity.getD s 0 < rs.entity_to_slot.length ∧
    rs.entity_to_slot.getD (rs.slot_to_entity.getD s 0) 0 = s) ∧
  (∀ e, e < rs.entity_to_slot.length → rs.entity_to_slot.getD e 0 ≠ U32MAX →
    rs.entity_to_slot.getD e 0 < rs.gpu_count ∧
    rs.slot_to_entity.getD (rs.entity_to_slot.getD e 0) 0 = e) ∧
  rs.gpu_count ≤ U32MAX

/-- One swap-remove iteration of the flush loop, on a live slot of a
well-formed state: the count drops by one, the maps stay well-formed, the
dead slot's entity unmaps, only slot s is rewritten in slot_to_entity, every
other mapped entity survives (relocated to s exactly when it sat in the last
slot), and unmapped entities stay unmapped. -/
theorem flush_one_step (rs : RenderState) (s : Nat)
    (hwf : rs.SlotMapWF) (hs : s < rs.gpu_count) :
    (rs.flush_one s).gpu_count = rs.gpu_count - 1 ∧
    (rs.flush_one s).entity_to_slot.length = rs.entity_to_slot.length ∧
    (rs.flush_one s).slot_to_entity.length = rs.slot_to_entity.length ∧
    (rs.flush_one s).SlotMapWF ∧
    (rs.flush_one s).entity_to_slot.getD (rs.slot_to_entity.getD s 0) 0 = U32MAX ∧
    (∀ t, t ≠ s →
      (rs.flush_one s).slot_to_entity.getD t 0 = rs.slot_to_entity.getD t 0) ∧
    (∀ e, e < rs.entity_to_slot.length → rs.entity_to_slot.getD e 0 ≠ U32MAX →
      e ≠ rs.slot_to_entity.getD s 0 →
      (rs.flush_one s).entity_to_slot.getD e 0 ≠ U32MAX ∧
      (((rs.flush_one s).entity_to_slot.getD e 0 = rs.entity_to_slot.getD e 0 ∧
         rs.entity_to_slot.getD e 0 ≠ rs.gpu_count - 1) ∨
       ((rs.flush_one s).entity_to_slot.getD e 0 = s ∧
         rs.entity_to_slot.getD e 0 = rs.gpu_count - 1))) ∧
    (∀ e, e < rs.entity_to_slot.length → rs.entity_to_slot.getD e 0 = U32MAX →
      (rs.flush_one s).entity_to_slot.getD e 0 = U32MAX) := by
  obtain ⟨hlen, hback, hforw, hmax⟩ := hwf
  have hdead := hback s hs
  have hsne : s ≠ U32MAX := by omega
  by_cases hne : s = rs.gpu_count - 1
  · have hE : (rs.flush_one s).entity_to_slot
        = rs.entity_to_slot.set (rs.slot_to_entity.getD s 0) U32MAX := by
      simp only [RenderState.flush_one]
      rw [if_neg (not_not_intro hne)]
    have hS : (rs.flush_one s).slot_to_entity = rs.slot_to_entity := by
      simp only [RenderState.flush_one]
      rw [if_neg (not_not_intro hne)]
    have hG : (rs.flush_one s).gpu_count = rs.gpu_count - 1 := by
      simp only [RenderState.flush_one]
      rw [if_neg (not_not_intro hne)]
    refine ⟨hG, by simp [hE], by simp [hS], ?_, ?_, ?_, ?_, ?_⟩
    · refine ⟨?_, ?_, ?_, ?_⟩
      · simp only [hG, hS]; omega
      · intro t ht
        rw [hG] at ht
        have hb := hback t (by omega)
        have het : rs.slot_to_entity.getD t 0 ≠ rs.slot_to_entity.getD s 0 := by
          intro h
          have := hb.2
          rw [h, hdead.2] at this
          omega
        rw [hS, hE]
        refine ⟨by simp only [List.length_set]; omega, ?_⟩
        rw [getD_set_ne _ _ _ _ _ het]
        exact hb.2
      · intro e he hemax
        rw [hE] at he hemax ⊢
        rw [hG, hS]
        simp only [List.length_set] at he
        have hedead : e ≠ rs.slot_to_entity.getD s 0 := by
          intro h
          rw [h, getD_set_self _ _ _ _ hdead.1] at hemax
          exact hemax rfl
        rw [getD_set_ne _ _ _ _ _ hedead] at hemax ⊢
        have hf := hforw e he hemax
        have hslotne : rs.entity_to_slot.getD e 0 ≠ rs.gpu_count - 1 := by
          intro h
          apply hedead
          rw [← hf.2, h, hne]
        exact ⟨by omega, hf.2⟩
      · rw [hG]; omega
    · rw [hE, getD_set_self _ _ _ _ hdead.1]
    · intro t _
      rw [hS]
    · intro e he hemax hedead
      rw [hE, getD_set_ne _ _ _ _ _ hedead]
      have hf := hforw e he hemax
      refine ⟨hemax, Or.inl ⟨rfl, ?_⟩⟩
      intro h
      apply hedead
      rw [← hf.2, h, hne]
    · intro e he hemax
      by_cases hedead : e = rs.slot_to_entity.getD s 0
      · rw [hE, hedead, getD_set_self _ _ _ _ hdead.1]
      · rw [hE, getD_set_ne _ _ _ _ _ hedead]
        exact hemax
  · have hlast : rs.gpu_count - 1 < rs.gpu_count := by omega
    have hm := hback (rs.gpu_count - 1) hlast
    have hdm : rs.slot_to_entity.getD s 0
        ≠ rs.slot_to_entity.getD (rs.gpu_count - 1) 0 := by
      intro h
      apply hne
      rw [← hdead.2, h, hm.2]
    have hE : (rs.flush_one s).entity_to_slot
        = (rs.entity_to_slot.set (rs.slot_to_entity.getD (rs.gpu_count - 1) 0) s).set
            (rs.slot_to_entity.getD s 0) U32MAX := by
      simp only [RenderState.flush_one]
      rw [if_pos hne]
      rfl
    have hS : (rs.flush_one s).slot_to_entity
        = rs.slot_to_entity.set s (rs.slot_to_entity.getD (rs.gpu_count - 1) 0) := by
      simp only [RenderState.flush_one]
      rw [if_pos hne]
      rfl
    have hG : (rs.flush_one s).gpu_count = rs.gpu_count - 1 := by
      simp only [RenderState.flush_one]
      rw [if_pos hne]
      rfl
    refine ⟨hG, by simp [hE], by simp [hS], ?_, ?_, ?_, ?_, ?_⟩
    · refine ⟨?_, ?_, ?_, ?_⟩
      · simp only [hG, hS, List.length_set]; omega
      · intro t ht
        rw [hG] at ht
        rw [hS, hE]
        by_cases hts : t = s
        · subst hts
          rw [getD_set_self _ _ _ _ (by omega)]
          refine ⟨by simp only [List.length_set]; omega, ?_⟩
          rw [getD_set_ne _ _ _ _ _ (Ne.symm hdm),
              getD_set_self _ _ _ _ hm.1]
        · rw [getD_set_ne _ _ _ _ _ hts]
          have hb := hback t (by omega)
          have het1 : rs.slot_to_entity.getD t 0 ≠ rs.slot_to_entity.getD s 0 := by
            intro h
            have := hb.2
            rw [h, hdead.2] at this
            omega
          have het2 : rs.slot_to_entity.getD t 0
              ≠ rs.slot_to_entity.getD (rs.gpu_count - 1) 0 := by
            intro h
            have := hb.2
            rw [h, hm.2] at this
            omega
          refine ⟨by simp only [List.length_set]; omega, ?_⟩
          rw [getD_set_ne _ _ _ _ _ het1,
              getD_set_ne _ _ _ _ _ het2]
          exact hb.2
      · intro e he hemax
        rw [hE] at he hemax ⊢
        rw [hG, hS]
        simp only [List.length_set] at he
        have hedead : e ≠ rs.slot_to_entity.getD s 0 := by
          intro h
          rw [h, getD_set_self _ _ _ _ (by simpa using hdead.1)] at hemax
          exact hemax rfl
        rw [getD_set_ne _ _ _ _ _ hedead] at hemax ⊢
        by_cases hem : e = rs.slot_to_entity.getD (rs.gpu_count - 1) 0
        · rw [hem, getD_set_self _ _ _ _ hm.1] at hemax ⊢
          refine ⟨by omega, ?_⟩
          rw [getD_set_self _ _ _ _ (by omega)]
        · rw [getD_set_ne _ _ _ _ _ hem] at hemax ⊢
          have hf := hforw e he hemax
          have hne1 : rs.entity_to_slot.getD e 0 ≠ rs.gpu_count - 1 := by
            intro h
            apply hem
            have h2 := hf.2
            rw [h] at h2
            exact h2.symm
          have hne2 : rs.entity_to_slot.getD e 0 ≠ s := by
            intro h
            apply hedead
            have h2 := hf.2
            rw [h] at h2
            exact h2.symm
          refine ⟨by omega, ?_⟩
          rw [getD_set_ne _ _ _ _ _ hne2]
          exact hf.2
      · rw [hG]; omega
    · rw [hE, getD_set_self _ _ _ _ (by simpa using hdead.1)]
    · intro t hts
      rw [hS, getD_set_ne _ _ _ _ _ hts]
    · intro e he hemax hedead
      rw [hE, getD_set_ne _ _ _ _ _ hedead]
      by_cases hem : e = rs.slot_to_entity.getD (rs.gpu_count - 1) 0
      · rw [hem, getD_set_self _ _ _ _ hm.1]
        refine ⟨hsne, Or.inr ⟨rfl, ?_⟩⟩
        exact hm.2
      · rw [getD_set_ne _ _ _ _ _ hem]
        have hf := hforw e he hemax
        refine ⟨hemax, Or.inl ⟨rfl, ?_⟩⟩
        intro h
        apply hem
        have h2 := hf.2
        rw [h] at h2
        exact h2.symm
    · intro e he hemax
      have hedead : e ≠ rs.slot_to_entity.getD s 0 := by
        intro h
        rw [h, hdead.2] at hemax
        omega
      have hem : e ≠ rs.slot_to_entity.getD (rs.gpu_count - 1) 0 := by
        intro h
        rw [h, hm.2] at hemax
        omega
      rw [hE, getD_set_ne _ _ _ _ _ hedead, getD_set_ne _ _ _ _ _ hem]
      exact hemax

/-- Folding the flush loop over a strictly descending list of live slots:
the count drops by the list length, the maps keep their lengths and stay
well-formed, each processed slot's original entity ends unmapped, mapped
entities whose slot is not in the list stay mapped, and unmapped entities
stay unmapped. -/
theorem flush_fold (L : List Nat) : ∀ (rs : RenderState),
    rs.SlotMapWF →
    L.Pairwise (fun a b => a > b) →
    (∀ t ∈ L, t < rs.gpu_count) →
    (L.foldl RenderState.flush_one rs).gpu_count = rs.gpu_count - L.length ∧
    (L.foldl RenderState.flush_one rs).entity_to_slot.length
      = rs.entity_to_slot.length ∧
    (L.foldl RenderState.flush_one rs).slot_to_entity.length
      = rs.slot_to_entity.length ∧
    (L.foldl RenderState.flush_one rs).SlotMapWF ∧
    (∀ t ∈ L, (L.foldl RenderState.flush_one rs).entity_to_slot.getD
        (rs.slot_to_entity.getD t 0) 0 = U32MAX) ∧
    (∀ e, e < rs.entity_to_slot.length → rs.entity_to_slot.getD e 0 ≠ U32MAX →
      rs.entity_to_slot.getD e 0 ∉ L →
      (L.foldl RenderState.flush_one rs).entity_to_slot.getD e 0 ≠ U32MAX) ∧
    (∀ e, e < rs.entity_to_slot.length → rs.entity_to_slot.getD e 0 = U32MAX →
      (L.foldl RenderState.flush_one rs).entity_to_slot.getD e 0 = U32MAX) := by
  induction L with
  | nil =>
    intro rs hwf _ _
    refine ⟨by simp, rfl, rfl, hwf, by simp, ?_, ?_⟩
    · intro e _ hemax _
      exact hemax
    · intro e _ h
      exact h
  | cons s L ih =>
    intro rs hwf hpw hins
    have hs : s < rs.gpu_count := hins s (List.mem_cons_self s L)
    obtain ⟨hG, hEl, hSl, hwf1, hdead1, hSst, hsurv, hkill⟩ :=
      flush_one_step rs s hwf hs
    have hpw' := List.pairwise_cons.mp hpw
    have hins' : ∀ t ∈ L, t < (rs.flush_one s).gpu_count := by
      intro t ht
      have h1 := hpw'.1 t ht
      rw [hG]
      omega
    obtain ⟨iG, iEl, iSl, iwf, iD, iE, iF⟩ := ih (rs.flush_one s) hwf1 hpw'.2 hins'
    have hsnotL : s ∉ L := by
      intro hmem
      exact absurd (hpw'.1 s hmem) (by omega)
    simp only [List.foldl_cons]
    refine ⟨?_, iEl.trans hEl, iSl.trans hSl, iwf, ?_, ?_, ?_⟩
    · rw [iG, hG]
      simp only [List.length_cons]
      omega
    · intro t ht
      rcases List.mem_cons.mp ht with hts | htL
      · subst hts
        exact iF (rs.slot_to_entity.getD t 0)
          (by rw [hEl]; exact (hwf.2.1 t hs).1) hdead1
      · have hts : t ≠ s := by
          have := hpw'.1 t htL
          omega
        have := iD t htL
        rw [hSst t hts] at this
        exact this
    · intro e he hemax hnin
      have hedead : e ≠ rs.slot_to_entity.getD s 0 := by
        intro h
        apply hnin
        rw [h, (hwf.2.1 s hs).2]
        exact List.mem_cons_self s L
      obtain ⟨h1, hd⟩ := hsurv e he hemax hedead
      refine iE e (by rw [hEl]; exact he) h1 ?_
      rcases hd with ⟨heq, _⟩ | ⟨heq, _⟩
      · rw [heq]
        intro hmem
        exact hnin (List.mem_cons_of_mem s hmem)
      · rw [heq]
        exact hsnotL
    · intro e he h
      exact iF e (by rw [hEl]; exact he) (hkill e he h)

/-- C5: flush_pending_despawns drops gpu_count by exactly the number of
live entries of the pending queue (entries whose entity currently has an
assigned slot; missing entities are ignored), keeps the slot maps
well-formed — in particular every remaining mapped entity's entity_to_slot
value is strictly below the new gpu_count — unmaps exactly the queued live
entities, and keeps every other mapped entity mapped (the descending
processing order makes every swapped-in "last" slot hold a live entity, so
no survivor is lost). -/
theorem flush_pending_despawns_invariants (rs : RenderState)
    (hwf : rs.SlotMapWF) (hnd : rs.pending_despawns.Nodup) :
    rs.flush_pending_despawns.gpu_count + rs.despawn_slots.length = rs.gpu_count ∧
    rs.flush_pending_despawns.SlotMapWF ∧
    (∀ e, e < rs.flush_pending_despawns.entity_to_slot.length →
      rs.flush_pending_despawns.entity_to_slot.getD e 0 ≠ U32MAX →
      rs.flush_pending_despawns.entity_to_slot.getD e 0
        < rs.flush_pending_despawns.gpu_count) ∧
    (∀ e ∈ rs.pending_despawns, e < rs.entity_to_slot.length →
      rs.entity_to_slot.getD e 0 ≠ U32MAX →
      rs.flush_pending_despawns.entity_to_slot.getD e 0 = U32MAX) ∧
    (∀ e, e < rs.entity_to_slot.length → rs.entity_to_slot.getD e 0 ≠ U32MAX →
      e ∉ rs.pending_despawns →
      rs.flush_pending_despawns.entity_to_slot.getD e 0 ≠ U32MAX) := by
  by_cases hpe : rs.pending_despawns.isEmpty
  · have hnil : rs.pending_despawns = [] := List.isEmpty_iff.mp hpe
    have hfl : rs.flush_pending_despawns = rs := by
      simp [RenderState.flush_pending_despawns, hpe]
    have hds : rs.despawn_slots = [] := by
      simp [RenderState.despawn_slots, hnil]
    rw [hfl, hds]
    refine ⟨by simp, hwf, ?_, ?_, ?_⟩
    · intro e he hemax
      exact (hwf.2.2.1 e he hemax).1
    · intro e hmem
      rw [hnil] at hmem
      exact absurd hmem (List.not_mem_nil e)
    · intro e _ hemax _
      exact hemax
  · have hmemslots : ∀ t ∈ rs.despawn_slots,
        t < rs.gpu_count ∧ rs.slot_to_entity.getD t 0 ∈ rs.pending_despawns := by
      intro t ht
      simp only [RenderState.despawn_slots, List.mem_filterMap] at ht
      obtain ⟨e, hmem, hfe⟩ := ht
      by_cases h1 : e ≥ rs.entity_to_slot.length
      · rw [if_pos h1] at hfe
        exact absurd hfe (by simp)
      · rw [if_neg h1] at hfe
        by_cases h2 : rs.entity_to_slot.getD e 0 = U32MAX
        · rw [if_pos h2] at hfe
          exact absurd hfe (by simp)
        · rw [if_neg h2] at hfe
          injection hfe with hfe
          have hforw := hwf.2.2.1 e (by omega) h2
          subst hfe
          exact ⟨hforw.1, by rw [hforw.2]; exact hmem⟩
    have hndslots : rs.despawn_slots.Nodup := by
      refine List.Nodup.filterMap ?_ hnd
      intro a b t hta htb
      rw [Option.mem_def] at hta htb
      by_cases h1 : a ≥ rs.entity_to_slot.length
      · rw [if_pos h1] at hta
        exact absurd hta (by simp)
      · rw [if_neg h1] at hta
        by_cases h2 : rs.entity_to_slot.getD a 0 = U32MAX
        · rw [if_pos h2] at hta
          exact absurd hta (by simp)
        · rw [if_neg h2] at hta
          by_cases h3 : b ≥ rs.entity_to_slot.length
          · rw [if_pos h3] at htb
            exact absurd htb (by simp)
          · rw [if_neg h3] at htb
            by_cases h4 : rs.entity_to_slot.getD b 0 = U32MAX
            · rw [if_pos h4] at htb
              exact absurd htb (by simp)
            · rw [if_neg h4] at htb
              injection hta with hta
              injection htb with htb
              have hfa := hwf.2.2.1 a (by omega) h2
              have hfb := hwf.2.2.1 b (by omega) h4
              rw [← hfa.2, ← hfb.2, hta, htb]
    have hfl : rs.flush_pending_despawns
        = (rs.despawn_slots.insertionSort (fun a b => a ≥ b)).foldl
            RenderState.flush_one { rs with pending_despawns := [] } := by
      simp [RenderState.flush_pending_despawns, hpe]
    have hperm := List.perm_insertionSort (fun a b => a ≥ b) rs.despawn_slots
    have hsorted := List.sorted_insertionSort (fun a b => a ≥ b) rs.despawn_slots
    have hndsorted : (rs.despawn_slots.insertionSort (fun a b => a ≥ b)).Nodup :=
      hperm.symm.nodup hndslots
    have hpairgt : (rs.despawn_slots.insertionSort (fun a b => a ≥ b)).Pairwise
        (fun a b => a > b) :=
      List.Pairwise.imp (fun h => by omega) (List.Pairwise.and hsorted hndsorted)
    have hwf0 : RenderState.SlotMapWF { rs with pending_despawns := [] } := hwf
    have hsortmem : ∀ t ∈ rs.despawn_slots.insertionSort (fun a b => a ≥ b),
        t < RenderState.gpu_count { rs with pending_despawns := [] } := by
      intro t ht
      exact (hmemslots t (hperm.mem_iff.mp ht)).1
    obtain ⟨fG, fEl, fSl, fwf, fD, fE, fF⟩ :=
      flush_fold (rs.despawn_slots.insertionSort (fun a b => a ≥ b))
        { rs with pending_despawns := [] } hwf0 hpairgt hsortmem
    have hlenle : rs.despawn_slots.length ≤ rs.gpu_count := by
      have h1 : rs.despawn_slots.toFinset ⊆ Finset.range rs.gpu_count := by
        intro x hx
        rw [List.mem_toFinset] at hx
        exact Finset.mem_range.mpr (hmemslots x hx).1
      have h2 := Finset.card_le_card h1
      rw [Finset.card_range, List.toFinset_card_of_nodup hndslots] at h2
      exact h2
    rw [hfl]
    refine ⟨?_, fwf, ?_, ?_, ?_⟩
    · rw [fG, hperm.length_eq]
      have hg0 : RenderState.gpu_count { rs with pending_despawns := [] }
          = rs.gpu_count := rfl
      rw [hg0]
      omega
    · intro e he hemax
      exact (fwf.2.2.1 e he hemax).1
    · intro e hmem he hemax
      have htmem : rs.entity_to_slot.getD e 0
          ∈ rs.despawn_slots.insertionSort (fun a b => a ≥ b) := by
        rw [hperm.mem_iff]
        simp only [RenderState.despawn_slots, List.mem_filterMap]
        refine ⟨e, hmem, ?_⟩
        rw [if_neg (by omega), if_neg hemax]
      have hD := fD (rs.entity_to_slot.getD e 0) htmem
      rw [show RenderState.slot_to_entity { rs with pending_despawns := [] }
            = rs.slot_to_entity from rfl] at hD
      rw [(hwf.2.2.1 e he hemax).2] at hD
      exact hD
    · intro e he hemax hnin
      refine fE e he hemax ?_
      intro hmem
      obtain ⟨e', hmem', hfe⟩ := by
        have := hperm.mem_iff.mp hmem
        simpa only [RenderState.despawn_slots, List.mem_filterMap] using this
      by_cases h1 : e' ≥ rs.entity_to_slot.length
      · rw [if_pos h1] at hfe
        exact absurd hfe (by simp)
      · rw [if_neg h1] at hfe
        by_cases h2 : rs.entity_to_slot.getD e' 0 = U32MAX
        · rw [if_pos h2] at hfe
          exact absurd hfe (by simp)
        · rw [if_neg h2] at hfe
          injection hfe with hfe
          have hfa := hwf.2.2.1 e' (by omega) h2
          have hfb := hwf.2.2.1 e he hemax
          have : e = e' := by
            rw [← hfb.2, ← hfa.2, hfe]
          rw [this] at hnin
          exact hnin hmem'

instance (rs : RenderState) : Decidable rs.SlotMapWF :=
  inferInstanceAs (Decidable (
    rs.gpu_count ≤ rs.slot_to_entity.length ∧
    (∀ s, s < rs.gpu_count →
      rs.slot_to_entity.getD s 0 < rs.entity_to_slot.length ∧
      rs.entity_to_slot.getD (rs.slot_to_entity.getD s 0) 0 = s) ∧
    (∀ e, e < rs.entity_to_slot.length → rs.entity_to_slot.getD e 0 ≠ U32MAX →
      rs.entity_to_slot.getD e 0 < rs.gpu_count ∧
      rs.slot_to_entity.getD (rs.entity_to_slot.getD e 0) 0 = e) ∧
    rs.gpu_count ≤ U32MAX))

/-- Two-slot fixture for the flush witness: entities 5 (slot 0) and 7
(slot 1) are mapped; entity 5 and the never-assigned entity 9 are queued. -/
def flushFix : RenderState :=
  { RenderState.new with
    gpu_count := 2
    slot_to_entity := [5, 7]
    entity_to_slot := [U32MAX, U32MAX, U32MAX, U32MAX, U32MAX, 0, U32MAX, 1]
    pending_despawns := [5, 9] }

/-- Concrete instantiation of the flush theorem: one live queued entry (the
slotless entity 9 is ignored), the count drops 2 → 1, entity 5 unmaps and
the swapped-in entity 7 survives at slot 0. -/
theorem flush_pending_despawns_invariants_witness :
    (flushFix.SlotMapWF ∧ flushFix.pending_despawns.Nodup) ∧
    (flushFix.flush_pending_despawns.gpu_count + flushFix.despawn_slots.length
        = flushFix.gpu_count ∧
      flushFix.flush_pending_despawns.SlotMapWF ∧
      (∀ e, e < flushFix.flush_pending_despawns.entity_to_slot.length →
        flushFix.flush_pending_despawns.entity_to_slot.getD e 0 ≠ U32MAX →
        flushFix.flush_pending_despawns.entity_to_slot.getD e 0
          < flushFix.flush_pending_despawns.gpu_count) ∧
      (∀ e ∈ flushFix.pending_despawns, e < flushFix.entity_to_slot.length →
        flushFix.entity_to_slot.getD e 0 ≠ U32MAX →
        flushFix.flush_pending_despawns.entity_to_slot.getD e 0 = U32MAX) ∧
      (∀ e, e < flushFix.entity_to_slot.length →
        flushFix.entity_to_slot.getD e 0 ≠ U32MAX →
        e ∉ flushFix.pending_despawns →
        flushFix.flush_pending_despawns.entity_to_slot.getD e 0 ≠ U32MAX)) ∧
    (flushFix.flush_pending_despawns.gpu_count = 1 ∧
      flushFix.flush_pending_despawns.entity_to_slot.getD 5 0 = U32MAX ∧
      flushFix.flush_pending_despawns.entity_to_slot.getD 7 0 = 0) :=
  ⟨⟨by decide, by decide⟩,
   flush_pending_despawns_invariants flushFix (by decide) (by decide),
   by decide, by decide, by decide⟩

-- ---------------------------------------------------------------------------
-- SetParent idempotence, general pre-states (command_processor.rs:306-384)
-- ---------------------------------------------------------------------------

/-- The old-parent removal block of the SetParent branch
(command_processor.rs:320-346), verbatim, as a function of the old parent
entity; proven below to be exactly what process_single_command runs. -/
def setparentRemoveFrom (w : World) (child_id : Nat) (old_parent_entity : Nat) :
    World :=
  let step1 : World × Bool :=
    match w.get old_parent_entity with
    | some pd =>
      let res := pd.children.remove child_id
      (w.modify old_parent_entity (fun d => { d with children := res.1 }),
       res.2)
    | none => (w, false)
  let w := step1.1
  if step1.2 = false then
    let step2 : World × Bool :=
      match w.get old_parent_entity with
      | some pd =>
        match pd.overflowChildren with
        | some items =>
          let kept := items.filter (fun id => !(id = child_id))
          (w.modify old_parent_entity
            (fun d => { d with overflowChildren := some kept }),
           kept.isEmpty)
        | none => (w, false)
      | none => (w, false)
    let w := step2.1
    if step2.2 then
      w.modify old_parent_entity (fun d => { d with overflowChildren := none })
    else w
  else w

/-- The new-parent add block of the SetParent branch
(command_processor.rs:358-379), verbatim, as a function of the resolved
parent entity; proven below to be exactly what process_single_command
runs. -/
def setparentAddTo (w : World) (child_id : Nat) (parent_entity : Nat) : World :=
  let addStep : World × Option (Nat × Nat) :=
    match w.get parent_entity with
    | some pd =>
      let res := pd.children.add child_id
      (w.modify parent_entity (fun d => { d with children := res.1 }),
       if res.2 = false then some (parent_entity, child_id) else none)
    | none => (w, none)
  let w := addStep.1
  match addStep.2 with
  | some pc =>
    match w.get pc.1 with
    | some pd =>
      match pd.overflowChildren with
      | some items =>
        w.modify pc.1 (fun d => { d with overflowChildren := some (items ++ [pc.2]) })
      | none =>
        w.modify pc.1 (fun d => { d with overflowChildren := some [pc.2] })
    | none => w
  | none => w

/-- What the removal block leaves in the old parent's record: the
swap-removed inline slots, and — only when the inline remove missed — the
overflow items filtered of the child, the component dropped if emptied. -/
def childRemoveResult (od : EntityData) (c : Nat) : EntityData :=
  let res := od.children.remove c
  let od1 := { od with children := res.1 }
  if res.2 = false then
    match od1.overflowChildren with
    | some items =>
      let kept := items.filter (fun id => !(id = c))
      let od2 := { od1 with overflowChildren := some kept }
      if kept.isEmpty then { od2 with overflowChildren := none } else od2
    | none => od1
  else od1

/-- What the add block leaves in the new parent's record: inline append on
success, otherwise an overflow append (creating the component if absent). -/
def childAddResult (pd : EntityData) (c : Nat) : EntityData :=
  let res := pd.children.add c
  let pd1 := { pd with children := res.1 }
  if res.2 = false then
    match pd1.overflowChildren with
    | some items => { pd1 with overflowChildren := some (items ++ [c]) }
    | none => { pd1 with overflowChildren := some [c] }
  else pd1

theorem findIdx_append_cons (c : Nat) :
    ∀ (l1 : List Nat) (l2 : List Nat) (i : Nat), c ∉ l1 →
      (l1 ++ c :: l2).findIdx? (fun s => s = c) i = some (i + l1.length) := by
  intro l1
  induction l1 with
  | nil =>
    intro l2 i _
    simp [List.findIdx?]
  | cons a t ih =>
    intro l2 i hnl
    have ha : ¬(a = c) := by
      intro h; exact hnl (h ▸ List.mem_cons_self a t)
    simp only [List.cons_append, List.findIdx?, List.append_eq]
    rw [if_neg (by simpa using ha)]
    rw [ih l2 (i + 1) (fun h => hnl (List.mem_cons_of_mem a h))]
    congr 1
    simp only [List.length_cons]
    omega

theorem set_append_cons (v c : Nat) :
    ∀ (l1 l2 : List Nat), (l1 ++ c :: l2).set l1.length v = l1 ++ v :: l2 := by
  intro l1 l2
  induction l1 with
  | nil => rfl
  | cons a t ih => simpa [List.set] using ih

theorem mem_count_le_one_split (c : Nat) (l : List Nat) (hm : c ∈ l)
    (hc : l.count c ≤ 1) :
    ∃ l1 l2, l = l1 ++ c :: l2 ∧ c ∉ l1 ∧ c ∉ l2 := by
  obtain ⟨l1, l2, rfl⟩ := List.mem_iff_append.mp hm
  rw [List.count_append, List.count_cons_self] at hc
  exact ⟨l1, l2, rfl, List.count_eq_zero.mp (by omega),
    List.count_eq_zero.mp (by omega)⟩

/-- The removal result after a removal from a record holding the child at
most once (and never an empty overflow component): the child is gone from
both lists, the inline slots do not grow, and the overflow component is
still never empty. -/
theorem childRemoveResult_spec (od : EntityData) (c : Nat)
    (hcount : od.children.slots.count c
      + (od.overflowChildren.getD []).count c ≤ 1)
    (hovne : od.overflowChildren ≠ some []) :
    c ∉ (childRemoveResult od c).children.slots ∧
    c ∉ (childRemoveResult od c).overflowChildren.getD [] ∧
    (childRemoveResult od c).children.slots.length ≤ od.children.slots.length ∧
    (childRemoveResult od c).overflowChildren ≠ some [] := by
  by_cases hmem : c ∈ od.children.slots
  · have hovc : c ∉ od.overflowChildren.getD [] := by
      intro hco
      have h1 : 0 < od.children.slots.count c := List.count_pos_iff_mem.mpr hmem
      have h2 : 0 < (od.overflowChildren.getD []).count c :=
        List.count_pos_iff_mem.mpr hco
      omega
    obtain ⟨l1, l2, hsl, hn1, hn2⟩ :=
      mem_count_le_one_split c od.children.slots hmem (by omega)
    have hfi : od.children.slots.findIdx? (fun s => s = c) = some l1.length := by
      rw [hsl, findIdx_append_cons c l1 l2 0 hn1]
      simp
    rcases List.eq_nil_or_concat' l2 with rfl | ⟨l2', b, rfl⟩
    · have hrm : od.children.remove c = (⟨l1⟩, true) := by
        simp only [Children.remove, hfi]
        rw [hsl]
        simp only [List.length_append, List.length_cons, List.length_nil,
          Nat.zero_add, Nat.add_sub_cancel]
        rw [getD_append_length, set_append_length, List.take_left]
      simp only [childRemoveResult, hrm]
      refine ⟨hn1, hovc, ?_, hovne⟩
      rw [hsl]
      simp
    · obtain ⟨hn2', hncb⟩ : c ∉ l2' ∧ c ≠ b := by simpa using hn2
      have hlen1 : od.children.slots.length = (l1 ++ c :: l2').length + 1 := by
        rw [hsl]
        simp
        omega
      have hassoc : od.children.slots = (l1 ++ c :: l2') ++ [b] := by
        rw [hsl]
        simp
      have hrm : od.children.remove c = (⟨l1 ++ b :: l2'⟩, true) := by
        simp only [Children.remove, hfi]
        rw [hlen1, Nat.add_sub_cancel]
        rw [show od.children.slots.getD (l1 ++ c :: l2').length 0 = b from by
          rw [hassoc, getD_append_length]]
        rw [show od.children.slots.set l1.length b = (l1 ++ b :: l2') ++ [b] from by
          rw [hsl, set_append_cons]
          simp]
        rw [show (l1 ++ c :: l2').length = (l1 ++ b :: l2').length from by simp]
        rw [List.take_left]
      simp only [childRemoveResult, hrm]
      refine ⟨?_, hovc, ?_, hovne⟩
      · intro hcmem
        rcases List.mem_append.mp hcmem with h | h
        · exact hn1 h
        · rcases List.mem_cons.mp h with h | h
          · exact hncb h
          · exact hn2' h
      · rw [hlen1]
        simp
  · have hfi : od.children.slots.findIdx? (fun s => s = c) = none :=
      findIdx_none_of_not_mem c od.children.slots 0 hmem
    have hrm : od.children.remove c = (od.children, false) := by
      simp only [Children.remove, hfi]
    rcases hov : od.overflowChildren with _ | items
    · simp only [childRemoveResult, hrm, hov]
      exact ⟨hmem, by simp, Nat.le_refl _, by simp⟩
    · have hkc : c ∉ items.filter (fun id => !(id = c)) := by
        intro hcm
        have := List.of_mem_filter hcm
        simp at this
      by_cases hk : (items.filter (fun id => !(id = c))).isEmpty = true
      · simp only [childRemoveResult, hrm, hov, hk]
        exact ⟨hmem, by simp, Nat.le_refl _, by simp⟩
      · simp only [childRemoveResult, hrm, hov]
        rw [if_neg hk]
        refine ⟨hmem, by simpa using hkc, Nat.le_refl _, ?_⟩
        intro hcontra
        injection hcontra with hcontra
        rw [hcontra] at hk
        exact hk rfl

/-- The add result on a record free of the child and within the inline cap:
the child lands at the end of exactly one of the two lists — inline below
the cap, overflow at the cap — and in the other list it does not appear. -/
theorem childAddResult_shape (pd : EntityData) (c : Nat)
    (hin : c ∉ pd.children.slots) (hov : c ∉ pd.overflowChildren.getD [])
    (hcap : pd.children.slots.length ≤ Children.MAX_CHILDREN) :
    ((∃ l, (childAddResult pd c).children.slots = l ++ [c] ∧ c ∉ l ∧
        l.length < Children.MAX_CHILDREN ∧
        c ∉ (childAddResult pd c).overflowChildren.getD []) ∨
      ((childAddResult pd c).children.slots.length = Children.MAX_CHILDREN ∧
        c ∉ (childAddResult pd c).children.slots ∧
        ∃ items, (childAddResult pd c).overflowChildren = some (items ++ [c]) ∧
          c ∉ items)) ∧
    (c ∈ (childAddResult pd c).children.slots ↔
      ¬ c ∈ (childAddResult pd c).overflowChildren.getD []) := by
  by_cases hfull : pd.children.slots.length ≥ Children.MAX_CHILDREN
  · have hadd : pd.children.add c = (pd.children, false) := by
      simp only [Children.add, if_pos hfull]
    have hlen : pd.children.slots.length = Children.MAX_CHILDREN :=
      Nat.le_antisymm hcap hfull
    rcases hovc : pd.overflowChildren with _ | items
    · simp only [childAddResult, hadd, hovc]
      refine ⟨Or.inr ⟨hlen, hin, [], by simp, by simp⟩, ?_, ?_⟩
      · intro h
        exact absurd h hin
      · intro h
        exact absurd (by simp) h
    · have hovi : c ∉ items := by
        rw [hovc] at hov
        simpa using hov
      simp only [childAddResult, hadd, hovc]
      refine ⟨Or.inr ⟨hlen, hin, items, rfl, hovi⟩, ?_, ?_⟩
      · intro h
        exact absurd h hin
      · intro h
        exact absurd (by simp : c ∈ items ++ [c]) h
  · have hadd : pd.children.add c = (⟨pd.children.slots ++ [c]⟩, true) := by
      simp only [Children.add, if_neg hfull]
    simp only [childAddResult, hadd]
    refine ⟨Or.inl ⟨pd.children.slots, rfl, hin, Nat.not_le.mp hfull, hov⟩, ?_, ?_⟩
    · intro _
      exact hov
    · intro _
      simp

/-- The removal block is a no-op when the old parent handle is dangling. -/
theorem setparentRemoveFrom_dead (w : World) (c oe : Nat)
    (hoe : w.get oe = none) : setparentRemoveFrom w c oe = w := by
  simp [setparentRemoveFrom, hoe]

/-- The removal block rewrites exactly the old parent's record — to the
removal result — and leaves every other lookup unchanged. -/
theorem setparentRemoveFrom_get (w : World) (c oe : Nat) (od : EntityData)
    (hoe : w.get oe = some od) :
    (setparentRemoveFrom w c oe).get oe = some (childRemoveResult od c) ∧
    ∀ e, e ≠ oe → (setparentRemoveFrom w c oe).get e = w.get e := by
  rcases hr2 : (od.children.remove c).2 with _ | _
  · rcases hovc : od.overflowChildren with _ | items
    · have hred : setparentRemoveFrom w c oe
          = w.modify oe (fun d => { d with children := (od.children.remove c).1 }) := by
        simp [setparentRemoveFrom, hoe, hr2, hovc, World.get_modify_self]
      refine ⟨?_, ?_⟩
      · rw [hred, World.get_modify_self, hoe]
        simp [childRemoveResult, hr2, hovc]
      · intro e he
        rw [hred, World.get_modify_other _ _ _ _ he]
    · by_cases hk : ((items.filter (fun id => !(id = c))).isEmpty = true)
      · have hred : setparentRemoveFrom w c oe
            = ((w.modify oe (fun d =>
                  { d with children := (od.children.remove c).1 })).modify oe
                (fun d =>
                  { d with
                    overflowChildren := some (items.filter (fun id => !(id = c))) })).modify oe
                (fun d => { d with overflowChildren := none }) := by
          simp [setparentRemoveFrom, hoe, hr2, hovc, hk, World.get_modify_self]
        refine ⟨?_, ?_⟩
        · rw [hred, World.get_modify_self, World.get_modify_self,
              World.get_modify_self, hoe]
          simp [childRemoveResult, hr2, hovc, hk]
        · intro e he
          rw [hred, World.get_modify_other _ _ _ _ he,
              World.get_modify_other _ _ _ _ he, World.get_modify_other _ _ _ _ he]
      · have hred : setparentRemoveFrom w c oe
            = (w.modify oe (fun d =>
                  { d with children := (od.children.remove c).1 })).modify oe
                (fun d =>
                  { d with
                    overflowChildren := some (items.filter (fun id => !(id = c))) }) := by
          simp [setparentRemoveFrom, hoe, hr2, hovc, hk, World.get_modify_self]
        refine ⟨?_, ?_⟩
        · rw [hred, World.get_modify_self, World.get_modify_self, hoe]
          simp [childRemoveResult, hr2, hovc, hk]
        · intro e he
          rw [hred, World.get_modify_other _ _ _ _ he,
              World.get_modify_other _ _ _ _ he]
  · have hred : setparentRemoveFrom w c oe
        = w.modify oe (fun d => { d with children := (od.children.remove c).1 }) := by
      simp [setparentRemoveFrom, hoe, hr2]
    refine ⟨?_, ?_⟩
    · rw [hred, World.get_modify_self, hoe]
      simp [childRemoveResult, hr2]
    · intro e he
      rw [hred, World.get_modify_other _ _ _ _ he]

/-- The add block rewrites exactly the new parent's record — to the add
result — and leaves every other lookup unchanged. -/
theorem setparentAddTo_get (w : World) (c pe : Nat) (pd : EntityData)
    (hpe : w.get pe = some pd) :
    (setparentAddTo w c pe).get pe = some (childAddResult pd c) ∧
    ∀ e, e ≠ pe → (setparentAddTo w c pe).get e = w.get e := by
  rcases ha2 : (pd.children.add c).2 with _ | _
  · rcases hovc : pd.overflowChildren with _ | items
    · have hred : setparentAddTo w c pe
          = (w.modify pe (fun d =>
                { d with children := (pd.children.add c).1 })).modify pe
              (fun d => { d with overflowChildren := some [c] }) := by
        simp [setparentAddTo, hpe, ha2, hovc, World.get_modify_self]
      refine ⟨?_, ?_⟩
      · rw [hred, World.get_modify_self, World.get_modify_self, hpe]
        simp [childAddResult, ha2, hovc]
      · intro e he
        rw [hred, World.get_modify_other _ _ _ _ he,
            World.get_modify_other _ _ _ _ he]
    · have hred : setparentAddTo w c pe
          = (w.modify pe (fun d =>
                { d with children := (pd.children.add c).1 })).modify pe
              (fun d => { d with overflowChildren := some (items ++ [c]) }) := by
        simp [setparentAddTo, hpe, ha2, hovc, World.get_modify_self]
      refine ⟨?_, ?_⟩
      · rw [hred, World.get_modify_self, World.get_modify_self, hpe]
        simp [childAddResult, ha2, hovc]
      · intro e he
        rw [hred, World.get_modify_other _ _ _ _ he,
            World.get_modify_other _ _ _ _ he]
  · have hred : setparentAddTo w c pe
        = w.modify pe (fun d => { d with children := (pd.children.add c).1 }) := by
      simp [setparentAddTo, hpe, ha2]
    refine ⟨?_, ?_⟩
    · rw [hred, World.get_modify_self, hpe]
      simp [childAddResult, ha2]
    · intro e he
      rw [hred, World.get_modify_other _ _ _ _ he]

/-- SetParent with an unparented child: the dispatcher branch is the parent
write followed by the add block. -/
theorem process_setparent_noold (w : World) (m : EntityMap) (rs : RenderState)
    (cmd : Command) (child p ce pe : Nat) (cd : EntityData)
    (hct : cmd.cmd_type = CommandType.SetParent)
    (hid : cmd.entity_id = child)
    (hpl : cmd.payloadU32 0 = p)
    (hchild : m.get child = some ce)
    (hp : m.get p = some pe)
    (hpMAX : p ≠ U32MAX)
    (hce : w.get ce = some cd)
    (hold : cd.parent = U32MAX) :
    process_single_command cmd w m rs
      = (setparentAddTo (w.modify ce (fun d => { d with parent := p })) child pe,
         m, markTransformOf rs ce) := by
  simp [process_single_command, hct, hid, hpl, hchild, hp, hce, hold, hpMAX,
    setparentAddTo]

/-- SetParent with an unmapped old-parent id: the removal is skipped. -/
theorem process_setparent_oldunmapped (w : World) (m : EntityMap)
    (rs : RenderState) (cmd : Command) (child p ce pe : Nat) (cd : EntityData)
    (hct : cmd.cmd_type = CommandType.SetParent)
    (hid : cmd.entity_id = child)
    (hpl : cmd.payloadU32 0 = p)
    (hchild : m.get child = some ce)
    (hp : m.get p = some pe)
    (hpMAX : p ≠ U32MAX)
    (hce : w.get ce = some cd)
    (hold : cd.parent ≠ U32MAX)
    (hoem : m.get cd.parent = none) :
    process_single_command cmd w m rs
      = (setparentAddTo (w.modify ce (fun d => { d with parent := p })) child pe,
         m, markTransformOf rs ce) := by
  simp [process_single_command, hct, hid, hpl, hchild, hp, hce, hold, hoem,
    hpMAX, setparentAddTo]

/-- SetParent with a mapped old parent: the dispatcher branch is the removal
block, the parent write, then the add block. -/
theorem process_setparent_withold (w : World) (m : EntityMap) (rs : RenderState)
    (cmd : Command) (child p ce pe oe : Nat) (cd : EntityData)
    (hct : cmd.cmd_type = CommandType.SetParent)
    (hid : cmd.entity_id = child)
    (hpl : cmd.payloadU32 0 = p)
    (hchild : m.get child = some ce)
    (hp : m.get p = some pe)
    (hpMAX : p ≠ U32MAX)
    (hce : w.get ce = some cd)
    (hold : cd.parent ≠ U32MAX)
    (hoem : m.get cd.parent = some oe) :
    process_single_command cmd w m rs
      = (setparentAddTo
          ((setparentRemoveFrom w child oe).modify ce
            (fun d => { d with parent := p })) child pe,
         m, markTransformOf rs ce) := by
  simp [process_single_command, hct, hid, hpl, hchild, hp, hce, hold, hoem,
    hpMAX, setparentAddTo, setparentRemoveFrom]

/-- C6: Applying the same SetParent(child, p) command twice in succession —
child and p mapped to live distinct entities, p not the u32::MAX unparent
sentinel — leaves the membership of child in p's Children and
OverflowChildren after the second apply identical to the membership after
the first: p's record is the same after both applies, child sits in exactly
one of p's two lists, and it appears in no other entity's lists.  The child
may start unparented or already parented to any entity (p itself included,
at any position of either list); the state hypotheses are the invariants
the dispatcher maintains: child's list occurrences are consistent with its
Parent component and number at most one, the inline slots respect the
32-cap, and no OverflowChildren component is empty. -/
theorem setparent_twice_idempotent
    (w0 : World) (m : EntityMap) (rs : RenderState) (cmd : Command)
    (child p ce pe : Nat) (cd0 pd0 : EntityData)
    (hct : cmd.cmd_type = CommandType.SetParent)
    (hid : cmd.entity_id = child)
    (hpl : cmd.payloadU32 0 = p)
    (hchild : m.get child = some ce)
    (hp : m.get p = some pe)
    (hcp : ce ≠ pe)
    (hpMAX : p ≠ U32MAX)
    (hce : w0.get ce = some cd0)
    (hpe : w0.get pe = some pd0)
    (hcap : pd0.children.slots.length ≤ Children.MAX_CHILDREN)
    (hloc : ∀ e d, w0.get e = some d →
      child ∈ d.children.slots ∨ child ∈ d.overflowChildren.getD [] →
      cd0.parent ≠ U32MAX ∧ m.get cd0.parent = some e)
    (hmult : ∀ e d, w0.get e = some d →
      d.children.slots.count child + (d.overflowChildren.getD []).count child ≤ 1)
    (hovne : ∀ e d, w0.get e = some d → d.overflowChildren ≠ some []) :
    ∃ pd1,
      (process_single_command cmd w0 m rs).1.get pe = some pd1 ∧
      (process_single_command cmd (process_single_command cmd w0 m rs).1
          (process_single_command cmd w0 m rs).2.1
          (process_single_command cmd w0 m rs).2.2).1.get pe = some pd1 ∧
      (pd1.inlineHasChild child ↔ ¬pd1.overflowHasChild child) ∧
      (∀ e, e ≠ pe →
        (process_single_command cmd (process_single_command cmd w0 m rs).1
            (process_single_command cmd w0 m rs).2.1
            (process_single_command cmd w0 m rs).2.2).1.get e
          = (process_single_command cmd w0 m rs).1.get e) ∧
      (∀ e d, e ≠ pe → (process_single_command cmd w0 m rs).1.get e = some d →
        ¬d.inlineHasChild child ∧ ¬d.overflowHasChild child) := by
  have key : ∃ wR : World,
      process_single_command cmd w0 m rs
        = (setparentAddTo (wR.modify ce (fun d => { d with parent := p })) child pe,
           m, markTransformOf rs ce) ∧
      (∃ cdR, wR.get ce = some cdR ∧
        child ∉ cdR.children.slots ∧ child ∉ cdR.overflowChildren.getD []) ∧
      (∃ pdR, wR.get pe = some pdR ∧
        child ∉ pdR.children.slots ∧ child ∉ pdR.overflowChildren.getD [] ∧
        pdR.children.slots.length ≤ Children.MAX_CHILDREN ∧
        pdR.overflowChildren ≠ some []) ∧
      (∀ e d, e ≠ ce → e ≠ pe → wR.get e = some d →
        child ∉ d.children.slots ∧ child ∉ d.overflowChildren.getD []) := by
    by_cases hold : cd0.parent = U32MAX
    · refine ⟨w0,
        process_setparent_noold w0 m rs cmd child p ce pe cd0
          hct hid hpl hchild hp hpMAX hce hold,
        ⟨cd0, hce, fun h => (hloc ce cd0 hce (Or.inl h)).1 hold,
          fun h => (hloc ce cd0 hce (Or.inr h)).1 hold⟩,
        ⟨pd0, hpe, fun h => (hloc pe pd0 hpe (Or.inl h)).1 hold,
          fun h => (hloc pe pd0 hpe (Or.inr h)).1 hold,
          hcap, hovne pe pd0 hpe⟩,
        fun e d _ _ hget =>
          ⟨fun h => (hloc e d hget (Or.inl h)).1 hold,
           fun h => (hloc e d hget (Or.inr h)).1 hold⟩⟩
    · rcases hoem : m.get cd0.parent with _ | oe
      · have hnone : ∀ e d, w0.get e = some d →
            child ∉ d.children.slots ∧ child ∉ d.overflowChildren.getD [] := by
          intro e d hget
          constructor
          · intro h
            have h2 := (hloc e d hget (Or.inl h)).2
            rw [hoem] at h2
            exact Option.noConfusion h2
          · intro h
            have h2 := (hloc e d hget (Or.inr h)).2
            rw [hoem] at h2
            exact Option.noConfusion h2
        exact ⟨w0,
          process_setparent_oldunmapped w0 m rs cmd child p ce pe cd0
            hct hid hpl hchild hp hpMAX hce hold hoem,
          ⟨cd0, hce, (hnone ce cd0 hce).1, (hnone ce cd0 hce).2⟩,
          ⟨pd0, hpe, (hnone pe pd0 hpe).1, (hnone pe pd0 hpe).2,
            hcap, hovne pe pd0 hpe⟩,
          fun e d _ _ hget => hnone e d hget⟩
      · have heq := process_setparent_withold w0 m rs cmd child p ce pe oe cd0
          hct hid hpl hchild hp hpMAX hce hold hoem
        rcases hoe : w0.get oe with _ | od
        · rw [setparentRemoveFrom_dead w0 child oe hoe] at heq
          have hnone : ∀ e d, w0.get e = some d →
              child ∉ d.children.slots ∧ child ∉ d.overflowChildren.getD [] := by
            intro e d hget
            have hno : ∀ (h : child ∈ d.children.slots ∨
                child ∈ d.overflowChildren.getD []), False := by
              intro h
              have h2 := (hloc e d hget h).2
              rw [hoem] at h2
              injection h2 with h2
              rw [← h2] at hget
              rw [hoe] at hget
              exact Option.noConfusion hget
            exact ⟨fun h => hno (Or.inl h), fun h => hno (Or.inr h)⟩
          exact ⟨w0, heq,
            ⟨cd0, hce, (hnone ce cd0 hce).1, (hnone ce cd0 hce).2⟩,
            ⟨pd0, hpe, (hnone pe pd0 hpe).1, (hnone pe pd0 hpe).2,
              hcap, hovne pe pd0 hpe⟩,
            fun e d _ _ hget => hnone e d hget⟩
        · obtain ⟨hRoe, hRoth⟩ := setparentRemoveFrom_get w0 child oe od hoe
          have spec := childRemoveResult_spec od child (hmult oe od hoe)
            (hovne oe od hoe)
          have hclean_other : ∀ e d, e ≠ oe → w0.get e = some d →
              child ∉ d.children.slots ∧ child ∉ d.overflowChildren.getD [] := by
            intro e d heoe hget
            have hno : ∀ (h : child ∈ d.children.slots ∨
                child ∈ d.overflowChildren.getD []), False := by
              intro h
              have h2 := (hloc e d hget h).2
              rw [hoem] at h2
              injection h2 with h2
              exact heoe h2.symm
            exact ⟨fun h => hno (Or.inl h), fun h => hno (Or.inr h)⟩
          refine ⟨setparentRemoveFrom w0 child oe, heq, ?_, ?_, ?_⟩
          · by_cases hcee : ce = oe
            · subst hcee
              exact ⟨childRemoveResult od child, hRoe, spec.1, spec.2.1⟩
            · refine ⟨cd0, ?_, ?_, ?_⟩
              · rw [hRoth ce hcee]
                exact hce
              · exact (hclean_other ce cd0 hcee hce).1
              · exact (hclean_other ce cd0 hcee hce).2
          · by_cases hpee : pe = oe
            · subst hpee
              have hodpd : od = pd0 := by
                rw [hpe] at hoe
                injection hoe with h
                exact h.symm
              refine ⟨childRemoveResult od child, hRoe, spec.1, spec.2.1, ?_,
                spec.2.2.2⟩
              calc (childRemoveResult od child).children.slots.length
                  ≤ od.children.slots.length := spec.2.2.1
                _ ≤ Children.MAX_CHILDREN := by rw [hodpd]; exact hcap
            · refine ⟨pd0, ?_, ?_, ?_, hcap, hovne pe pd0 hpe⟩
              · rw [hRoth pe hpee]
                exact hpe
              · exact (hclean_other pe pd0 hpee hpe).1
              · exact (hclean_other pe pd0 hpee hpe).2
          · intro e d he1 he2 hget
            by_cases heoe : e = oe
            · subst heoe
              rw [hRoe] at hget
              injection hget with hget
              rw [← hget]
              exact ⟨spec.1, spec.2.1⟩
            · rw [hRoth e heoe] at hget
              exact hclean_other e d heoe hget
  obtain ⟨wR, heq1, ⟨cdR, hceR, hcc1, hcc2⟩,
    ⟨pdR, hpeR, hpc1, hpc2, hpcap, hpov⟩, hothR⟩ := key
  have hgPpe : (wR.modify ce (fun d => { d with parent := p })).get pe
      = some pdR := by
    rw [World.get_modify_other _ _ _ _ (Ne.symm hcp)]
    exact hpeR
  have hgPce : (wR.modify ce (fun d => { d with parent := p })).get ce
      = some { cdR with parent := p } := by
    rw [World.get_modify_self, hceR]
    rfl
  obtain ⟨hA_pe, hA_oth⟩ :=
    setparentAddTo_get (wR.modify ce (fun d => { d with parent := p }))
      child pe pdR hgPpe
  have hw1ce : (setparentAddTo (wR.modify ce (fun d => { d with parent := p }))
      child pe).get ce = some { cdR with parent := p } := by
    rw [hA_oth ce hcp]
    exact hgPce
  obtain ⟨hshape, hxor⟩ := childAddResult_shape pdR child hpc1 hpc2 hpcap
  obtain ⟨hm2, hce2, hpe2, hoth2⟩ :=
    setparent_apply_again
      (setparentAddTo (wR.modify ce (fun d => { d with parent := p })) child pe)
      m (markTransformOf rs ce) cmd child p ce pe
      { cdR with parent := p } (childAddResult pdR child)
      hct hid hpl hchild hp hcp hpMAX hw1ce hA_pe rfl hshape
  rw [heq1]
  refine ⟨childAddResult pdR child, hA_pe, hpe2, hxor, ?_, ?_⟩
  · intro e hepe
    by_cases hece : e = ce
    · subst hece
      rw [hce2, hw1ce]
    · exact hoth2 e hece hepe
  · intro e d hepe hget
    by_cases hece : e = ce
    · subst hece
      rw [hw1ce] at hget
      injection hget with hget
      rw [← hget]
      exact ⟨hcc1, hcc2⟩
    · rw [hA_oth e hepe, World.get_modify_other _ _ _ _ hece] at hget
      exact hothR e d hece hepe hget

/-- Three-entity fixture for the SetParent idempotence witness: external ids
0 (the child, already parented to 2 and held inline by it), 1 (the new
parent) and 2 (the old parent). -/
def spTwiceWorld : World :=
  { nextEid := 3, entities :=
      [(0, { defaultEntityData 0 with parent := 2 }),
       (1, defaultEntityData 1),
       (2, { defaultEntityData 2 with children := Children.mk [0] })] }

def spTwiceMap : EntityMap :=
  { map := [some 0, some 1, some 2], free_list := [], next_id := 3 }

/-- Concrete instantiation of the SetParent idempotence theorem on an
already-parented child: both applies leave entity 1 holding child 0 inline,
entity 2's inline slot emptied, and no other membership. -/
theorem setparent_twice_idempotent_witness :
    (∃ pd1,
      (process_single_command (cmdSetParent 0 1) spTwiceWorld spTwiceMap
        RenderState.new).1.get 1 = some pd1 ∧
      (process_single_command (cmdSetParent 0 1)
          (process_single_command (cmdSetParent 0 1) spTwiceWorld spTwiceMap
            RenderState.new).1
          (process_single_command (cmdSetParent 0 1) spTwiceWorld spTwiceMap
            RenderState.new).2.1
          (process_single_command (cmdSetParent 0 1) spTwiceWorld spTwiceMap
            RenderState.new).2.2).1.get 1 = some pd1 ∧
      (pd1.inlineHasChild 0 ↔ ¬pd1.overflowHasChild 0) ∧
      (∀ e, e ≠ 1 →
        (process_single_command (cmdSetParent 0 1)
            (process_single_command (cmdSetParent 0 1) spTwiceWorld spTwiceMap
              RenderState.new).1
            (process_single_command (cmdSetParent 0 1) spTwiceWorld spTwiceMap
              RenderState.new).2.1
            (process_single_command (cmdSetParent 0 1) spTwiceWorld spTwiceMap
              RenderState.new).2.2).1.get e
          = (process_single_command (cmdSetParent 0 1) spTwiceWorld spTwiceMap
              RenderState.new).1.get e) ∧
      (∀ e d, e ≠ 1 →
        (process_single_command (cmdSetParent 0 1) spTwiceWorld spTwiceMap
          RenderState.new).1.get e = some d →
        ¬d.inlineHasChild 0 ∧ ¬d.overflowHasChild 0)) ∧
    (process_single_command (cmdSetParent 0 1) spTwiceWorld spTwiceMap
      RenderState.new).1.get 1
      = some { defaultEntityData 1 with children := Children.mk [0] } ∧
    (process_single_command (cmdSetParent 0 1) spTwiceWorld spTwiceMap
      RenderState.new).1.get 2
      = some { defaultEntityData 2 with children := Children.mk [] } :=
  ⟨setparent_twice_idempotent spTwiceWorld spTwiceMap RenderState.new
    (cmdSetParent 0 1) 0 1 0 1
    { defaultEntityData 0 with parent := 2 } (defaultEntityData 1)
    rfl rfl (by decide) rfl rfl (by decide) (by decide) rfl rfl (by decide)
    (by
      intro e d hgd hmem
      rcases e with _ | _ | _ | n
      · simp [World.get, spTwiceWorld, List.find?] at hgd
        subst hgd
        exact absurd hmem (by decide)
      · simp [World.get, spTwiceWorld, List.find?] at hgd
        subst hgd
        exact absurd hmem (by decide)
      · simp [World.get, spTwiceWorld, List.find?] at hgd
        exact ⟨by decide, by decide⟩
      · simp [World.get, spTwiceWorld, List.find?] at hgd)
    (by
      intro e d hgd
      rcases e with _ | _ | _ | n
      · simp [World.get, spTwiceWorld, List.find?] at hgd
        subst hgd
        decide
      · simp [World.get, spTwiceWorld, List.find?] at hgd
        subst hgd
        decide
      · simp [World.get, spTwiceWorld, List.find?] at hgd
        subst hgd
        decide
      · simp [World.get, spTwiceWorld, List.find?] at hgd)
    (by
      intro e d hgd
      rcases e with _ | _ | _ | n
      · simp [World.get, spTwiceWorld, List.find?] at hgd
        subst hgd
        decide
      · simp [World.get, spTwiceWorld, List.find?] at hgd
        subst hgd
        decide
      · simp [World.get, spTwiceWorld, List.find?] at hgd
        subst hgd
        decide
      · simp [World.get, spTwiceWorld, List.find?] at hgd),
   by decide, by decide⟩
